/-
Verification development for the dsc-gym natural-language-to-action pipeline.

The TypeScript sources are shallowly embedded:
- JavaScript `Date` values are modelled as normalized civil date-times
  (`DateTime` below).  A JS `Date` always stores a single epoch-millisecond
  timestamp and renders it as a normalized calendar date, so comparison of
  two `Date`s coincides with lexicographic comparison of
  (year, month, day, millisecond-of-day); we order `DateTime` through the
  injective key that linearizes exactly that lexicographic order.
- `date.setDate(date.getDate() + k)` on a normalized date equals `k`
  applications of the calendar-day successor (`nextDay`), and
  `date.setMonth(date.getMonth() + 1)` advances the month slot and then
  normalizes a day overflow into the following month (`addMonth`).
- The database is a record of rows (`DBState`); Prisma calls performed by
  the repository are embedded as explicit state-passing functions.  Calls
  that can throw are embedded with `Except`/`Option` results.
- Host-language primitives that are not repository code (JSON.parse,
  number-to-string rendering, bcrypt hashing, the Prisma client itself)
  are taken as parameters of the embedded functions.
-/
import Mathlib

set_option maxHeartbeats 1000000

namespace DscGym

/-- JSON-like runtime values (the values flowing through JSON.parse results
and Prisma argument objects).  `date` represents a JS `Date` object built
from an ISO string (`new Date(s)`). -/
inductive JVal where
  | null : JVal
  | bool : Bool → JVal
  | num : Rat → JVal
  | str : String → JVal
  | arr : List JVal → JVal
  | obj : List (String × JVal) → JVal
  | date : String → JVal

/-- Look up a key in a JS object value; `none` models `undefined`
(key absent or receiver not an object). -/
def JVal.get : JVal → String → Option JVal
  | .obj fs, k => (fs.find? (fun f => f.1 = k)).map (·.2)
  | _, _ => none

/-- JS truthiness of a runtime value (`undefined` is handled by callers
via `Option`). -/
def JVal.truthy : JVal → Bool
  | .null => false
  | .bool b => b
  | .num q => q ≠ 0
  | .str s => s ≠ ""
  | .arr _ => true
  | .obj _ => true
  | .date _ => true

/-- Set a key on a JS object field list: overwrite in place if present
(JS object spread keeps the first occurrence's position), append otherwise. -/
def setKey (fs : List (String × JVal)) (k : String) (v : JVal) : List (String × JVal) :=
  if fs.any (fun f => f.1 = k) then
    fs.map (fun f => if f.1 = k then (k, v) else f)
  else fs ++ [(k, v)]

/-- The recurrence patterns accepted by the zod schema
(`z.enum(['DAILY','WEEKLY','BIWEEKLY','MONTHLY'])`). -/
inductive RecPattern where
  | DAILY | WEEKLY | BIWEEKLY | MONTHLY
deriving DecidableEq

/-- A normalized civil date-time: what a JS `Date` renders as.
`month` is 0-based as in JS (`getMonth()`), `ms` is the millisecond of the
day.  JS `Date`s are always normalized, which the proof fields record. -/
structure DateTime where
  year : Int
  month : Nat
  day : Nat
  ms : Nat
  month_lt : month < 12
  one_le_day : 1 ≤ day
  day_le : day ≤ 31
  ms_lt : ms < 86400000

/-- The epoch-like linear key: lexicographic (year, month, day, ms) packed
into one integer.  For normalized dates, JS timestamp order coincides with
this lexicographic order, hence with the order of `key`. -/
def DateTime.key (d : DateTime) : Int :=
  d.year * 33177600000 + (d.month : Int) * 2764800000 +
    (d.day : Int) * 86400000 + (d.ms : Int)

instance : DecidableEq DateTime := fun a b =>
  if h : a.year = b.year ∧ a.month = b.month ∧ a.day = b.day ∧ a.ms = b.ms then
    .isTrue (by
      obtain ⟨h1, h2, h3, h4⟩ := h
      cases a; cases b; simp_all)
  else
    .isFalse (fun he => h (by subst he; exact ⟨rfl, rfl, rfl, rfl⟩))

/-- JS `Date` comparison is comparison of timestamps; we order `DateTime`
by its linear key. -/
instance : LinearOrder DateTime :=
  LinearOrder.lift' DateTime.key (by
    intro a b h
    have hm1 := a.month_lt; have hm2 := b.month_lt
    have hd1 := a.day_le; have hd2 := b.day_le
    have hd1' := a.one_le_day; have hd2' := b.one_le_day
    have hs1 := a.ms_lt; have hs2 := b.ms_lt
    unfold DateTime.key at h
    have hy : a.year = b.year := by omega
    have hmo : a.month = b.month := by omega
    have hdy : a.day = b.day := by omega
    have hms : a.ms = b.ms := by omega
    cases a; cases b; simp_all)

/-- Number of days in month `m` (0-based) of year `y`, with the Gregorian
leap rule (as JS `Date` normalization uses). -/
def isLeap (y : Int) : Bool := y % 4 == 0 && (y % 100 != 0 || y % 400 == 0)

def daysInMonth (y : Int) (m : Nat) : Nat :=
  if m = 1 then (if isLeap y then 29 else 28)
  else if m = 3 ∨ m = 5 ∨ m = 8 ∨ m = 10 then 30
  else 31

/-- Successor calendar day, keeping the time of day
(the normalization step behind `setDate(getDate() + 1)`). -/
def nextDay (d : DateTime) : DateTime :=
  if h : d.day < daysInMonth d.year d.month then
    ⟨d.year, d.month, d.day + 1, d.ms, d.month_lt, by omega,
      by unfold daysInMonth at h; split at h <;> (try split at h) <;> omega,
      d.ms_lt⟩
  else if h2 : d.month + 1 < 12 then
    ⟨d.year, d.month + 1, 1, d.ms, h2, le_refl 1, by omega, d.ms_lt⟩
  else
    ⟨d.year + 1, 0, 1, d.ms, by omega, le_refl 1, by omega, d.ms_lt⟩

/-- Applies `k` successive calendar days: the effect of `setDate(getDate() + k)`
on a normalized date. -/
def addDays : Nat → DateTime → DateTime
  | 0, d => d
  | n + 1, d => addDays n (nextDay d)

/-- The effect of `setMonth(getMonth() + 1)`: advance the month slot
(with year carry), then normalize a day overflow into the following month.
Since `day ≤ 31` and every month has at least 28 days, at most one borrow
occurs (e.g. Jan 31 → "Feb 31" → Mar 2/3). -/
def addMonth (d : DateTime) : DateTime :=
  if h : d.month + 1 < 12 then
    if h2 : d.day ≤ daysInMonth d.year (d.month + 1) then
      ⟨d.year, d.month + 1, d.day, d.ms, h, d.one_le_day, d.day_le, d.ms_lt⟩
    else if h3 : d.month + 2 < 12 then
      ⟨d.year, d.month + 2, d.day - daysInMonth d.year (d.month + 1), d.ms,
        h3, by omega, by have := d.day_le; omega, d.ms_lt⟩
    else
      ⟨d.year + 1, 0, d.day - daysInMonth d.year (d.month + 1), d.ms,
        by omega, by omega, by have := d.day_le; omega, d.ms_lt⟩
  else
    -- month = 11: roll into January, which has 31 days, so no overflow
    ⟨d.year + 1, 0, d.day, d.ms, by omega, d.one_le_day, d.day_le, d.ms_lt⟩

/-- Embeds `advanceDate` from src/lib/parsing/actions.ts: DAILY +1 day,
WEEKLY +7 days, BIWEEKLY +14 days, MONTHLY +1 calendar month.
(The pattern reaches this function already validated to the four-element
enum, so it is embedded as `RecPattern`.) -/
def advanceDate (d : DateTime) : RecPattern → DateTime
  | .DAILY => addDays 1 d
  | .WEEKLY => addDays 7 d
  | .BIWEEKLY => addDays 14 d
  | .MONTHLY => addMonth d

/-! ## Database rows and state (prisma/schema: User, Trainer, Athlete, Session, CheckIn).
Only the entities the verified code paths touch are carried. -/

structure Athlete where
  id : String
  firstName : String
  lastName : String
  email : String
  trainerId : Option String
deriving DecidableEq

structure Session where
  id : String
  trainerId : String
  athleteId : String
  scheduledAt : DateTime
  duration : Rat
  completed : Bool
  completedAt : Option DateTime
  cancelled : Bool
  isRecurring : Bool
  recurrencePattern : Option RecPattern
  recurrenceEndDate : Option DateTime
  parentSessionId : Option String
deriving DecidableEq

structure CheckIn where
  id : String
  athleteId : String
  sessionId : Option String
  matched : Bool
deriving DecidableEq

/-- The relational store.  `nextId` feeds generated primary keys (cuid
generation is external; the embedding only needs freshness). -/
structure DBState where
  athletes : List Athlete
  sessions : List Session
  checkIns : List CheckIn
  nextId : Nat
deriving DecidableEq

/-- Embeds `db.athlete.create`: throws on a duplicate email
(`Athlete_email_key` unique constraint), otherwise appends the row. -/
def athleteCreate (st : DBState) (firstName lastName email : String)
    (trainerId : Option String) : Except Unit (DBState × Athlete) :=
  if st.athletes.any (fun a => a.email == email) then .error ()
  else
    let a : Athlete := ⟨"athlete" ++ toString st.nextId, firstName, lastName, email, trainerId⟩
    .ok ({ st with athletes := st.athletes ++ [a], nextId := st.nextId + 1 }, a)

/-- Embeds `db.session.create`: `completed`/`cancelled` default to false per the
schema; the row is appended. -/
def sessionCreate (st : DBState) (trainerId athleteId : String)
    (scheduledAt : DateTime) (duration : Rat) (isRecurring : Bool)
    (recurrencePattern : Option RecPattern) (recurrenceEndDate : Option DateTime)
    (parentSessionId : Option String) : DBState × Session :=
  let s : Session :=
    ⟨"session" ++ toString st.nextId, trainerId, athleteId, scheduledAt, duration,
      false, none, false, isRecurring, recurrencePattern, recurrenceEndDate, parentSessionId⟩
  ({ st with sessions := st.sessions ++ [s], nextId := st.nextId + 1 }, s)

/-! ## Parse-result types (src/types, mirrored by the zod schema) -/

inductive ParsedAction where
  | CREATE_SESSION | CREATE_RECURRING_SESSION | UPDATE_SESSION
  | CANCEL_SESSION | CREATE_ATHLETE | QUERY | UNKNOWN
deriving DecidableEq

structure ParsedSession where
  athleteId : Option String
  athleteName : String
  isNewAthlete : Bool
  scheduledAt : String
  duration : Rat
  recurrencePattern : Option RecPattern
  recurrenceEndDate : Option String
deriving DecidableEq

structure ParsedAthlete where
  firstName : String
  lastName : String
  email : Option String
deriving DecidableEq

/-- Trainer-scoped query descriptor.  `queryType` stays a raw string (the
executor has a default branch for unknown types); the `filters` object is
flattened into its four optional fields. -/
structure ParsedQuery where
  queryType : String
  dateFrom : Option String
  dateTo : Option String
  athleteId : Option String
  status : Option String
  description : String
deriving DecidableEq

structure ParseData where
  session : Option ParsedSession := none
  athlete : Option ParsedAthlete := none
  query : Option ParsedQuery := none
deriving DecidableEq

structure ParseResult where
  action : ParsedAction
  confidence : Rat
  data : ParseData
  clarificationNeeded : Option String
  humanReadableSummary : String
deriving DecidableEq

/-! ## Execution-result types -/

structure SessionView where
  id : String
  athleteName : String
  scheduledAt : DateTime
  duration : Rat
  completed : Bool
  cancelled : Bool
deriving DecidableEq

structure AthleteView where
  id : String
  firstName : String
  lastName : String
  email : String
deriving DecidableEq

structure ScheduleSummary where
  totalSessions : Nat
  completedSessions : Nat
  upcomingSessions : Nat
  totalAthletes : Nat
deriving DecidableEq

structure QueryResultData where
  sessions : Option (List SessionView) := none
  athletes : Option (List AthleteView) := none
  count : Option Nat := none
  summary : Option ScheduleSummary := none
deriving DecidableEq

/-- Uniform handler result (`ExecutionResult` in actions.ts; the variant
with `queryResult` is the one in the query-capable executor). -/
structure ExecutionResult where
  success : Bool
  message : String
  sessionId : Option String := none
  sessionIds : Option (List String) := none
  athleteData : Option (String × String × String) := none
  queryResult : Option QueryResultData := none
  errMsg : Option String := none
deriving DecidableEq

/-! ## Small JS-semantics helpers -/

/-- JS truthiness of an optional string (`undefined`/`null`/empty are falsy). -/
def optStrTruthy : Option String → Bool
  | none => false
  | some s => s ≠ ""

/-- Embeds `name.split(' ')[0]` -/
def splitNameFirst (name : String) : String := (name.splitOn " ").headD ""

/-- Embeds `nameParts.slice(1).join(' ') || 'Unknown'` -/
def splitNameLast (name : String) : String :=
  let j := String.intercalate " " ((name.splitOn " ").drop 1)
  if j = "" then "Unknown" else j

/-- JS `toLowerCase()` (ASCII lowering; the host primitive, embedded
explicitly so concrete evaluation stays kernel-reducible). -/
def jsToLower (s : String) : String := String.mk (s.data.map Char.toLower)

/-- The synthesized placeholder email
`` `${first.toLowerCase()}.${last.toLowerCase()}.${Date.now()}@placeholder.com` ``.
`numToString` is the host's number-to-string rendering, `nowMs` the
`Date.now()` reading. -/
def placeholderEmail (numToString : Nat → String) (first last : String) (nowMs : Nat) : String :=
  jsToLower first ++ "." ++ jsToLower last ++ "." ++ numToString nowMs ++ "@placeholder.com"

/-- Substring containment (Prisma `contains` filter). -/
def containsSubstr (hay needle : String) : Bool :=
  (List.range (hay.length + 1)).any (fun i => needle.isPrefixOf (hay.drop i))

/-- Embeds `new Date(d).setHours(0, 0, 0, 0)`: start of `d`'s calendar day. -/
def dayStart (d : DateTime) : DateTime :=
  ⟨d.year, d.month, d.day, 0, d.month_lt, d.one_le_day, d.day_le, by omega⟩

/-- Embeds `new Date(d).setHours(23, 59, 59, 999)`: last millisecond of `d`'s day. -/
def dayEnd (d : DateTime) : DateTime :=
  ⟨d.year, d.month, d.day, 86399999, d.month_lt, d.one_le_day, d.day_le, by omega⟩

/-! ## Trainer-scoped executor (src/lib/parsing/actions.ts) -/

/-- The duplicated "if new athlete, create them first" block at the top of
`createSession` and `createRecurringSessions`.  On a duplicate generated
email the create throws (propagated as `.error`). -/
def resolveAthleteId (numToString : Nat → String) (nowMs : Nat) (st : DBState)
    (sd : ParsedSession) (trainerId : String) :
    Except Unit (DBState × Option String) :=
  if sd.isNewAthlete ∧ ¬ optStrTruthy sd.athleteId then
    match athleteCreate st (splitNameFirst sd.athleteName) (splitNameLast sd.athleteName)
        (placeholderEmail numToString (splitNameFirst sd.athleteName)
          (splitNameLast sd.athleteName) nowMs)
        (some trainerId) with
    | .error e => .error e
    | .ok (st1, a) => .ok (st1, some a.id)
  else .ok (st, sd.athleteId)

/-- Embeds `createSession` in actions.ts.  `sessionData` is `Option` because the
dispatcher passes `data.session!`; when it is absent the property access
throws inside the handler's try/catch, yielding the catch-branch result.
`parseDate` embeds `new Date(isoString)`. -/
def createSession (numToString : Nat → String) (parseDate : String → DateTime)
    (nowMs : Nat) (st : DBState) (sessionData : Option ParsedSession)
    (trainerId : String) : DBState × ExecutionResult :=
  match sessionData with
  | none =>
    (st, { success := false, message := "Failed to create session", errMsg := some "TypeError" })
  | some sd =>
    match resolveAthleteId numToString nowMs st sd trainerId with
    | .error _ =>
      (st, { success := false, message := "Failed to create session",
             errMsg := some "Unique constraint failed on the fields: (Athlete.email)" })
    | .ok (st1, athleteId) =>
      if h : optStrTruthy athleteId then
        let aid := athleteId.get (by cases athleteId <;> simp_all [optStrTruthy])
        let (st2, s) := sessionCreate st1 trainerId aid (parseDate sd.scheduledAt)
          sd.duration false none none none
        (st2, { success := true, message := "Session scheduled for " ++ sd.athleteName,
                sessionId := some s.id })
      else
        (st1, { success := false, message := "Could not identify or create athlete",
                errMsg := some "Missing athlete ID" })

/-- The `while (currentDate <= endDate)` loop body of
`generateRecurringSessions`: create a child session at the current date,
advance by the pattern, repeat.  Terminates because every pattern strictly
advances the date. -/
def genLoop (trainerId athleteId parentId : String) (endDate : DateTime)
    (pat : RecPattern) (duration : Rat) (st : DBState) (cur : DateTime) :
    DBState × List Session :=
  if h : cur ≤ endDate then
    let p := sessionCreate st trainerId athleteId cur duration true (some pat) none (some parentId)
    let r := genLoop trainerId athleteId parentId endDate pat duration p.1 (advanceDate cur pat)
    (r.1, p.2 :: r.2)
  else (st, [])
termination_by ((endDate.key + 1) - cur.key).toNat
decreasing_by
  have hnext : ∀ d : DateTime, d.key < (nextDay d).key := by
    intro d
    have hm := d.month_lt
    have hd := d.day_le
    unfold nextDay
    split
    · simp only [DateTime.key]; omega
    · split
      · simp only [DateTime.key]; omega
      · simp only [DateTime.key]; omega
  have haddLe : ∀ (n : Nat) (d : DateTime), d.key ≤ (addDays n d).key := by
    intro n
    induction n with
    | zero => intro d; simp [addDays]
    | succ n ih =>
      intro d
      have h1 := hnext d
      have h2 := ih (nextDay d)
      simp only [addDays]
      omega
  have haddLt : ∀ (n : Nat) (d : DateTime), d.key < (addDays (n + 1) d).key := by
    intro n d
    have h1 := hnext d
    have h2 := haddLe n (nextDay d)
    simp only [addDays]
    omega
  have hmonth : ∀ d : DateTime, d.key < (addMonth d).key := by
    intro d
    have hm := d.month_lt
    have hd := d.day_le
    have hd1 := d.one_le_day
    have hdim : daysInMonth d.year (d.month + 1) ≤ 31 ∧ 28 ≤ daysInMonth d.year (d.month + 1) := by
      unfold daysInMonth; split <;> (try split) <;> omega
    unfold addMonth
    split
    · split
      · simp only [DateTime.key]; omega
      · split
        · simp only [DateTime.key]; omega
        · simp only [DateTime.key]; omega
    · simp only [DateTime.key]; omega
  have hadv : cur.key < (advanceDate cur pat).key := by
    cases pat
    · exact haddLt 0 cur
    · exact haddLt 6 cur
    · exact haddLt 13 cur
    · exact hmonth cur
  have hk : cur.key ≤ endDate.key := h
  omega

/-- Embeds `generateRecurringSessions` in actions.ts: copy the start date, advance
once ("move to next occurrence"), then run the while loop. -/
def generateRecurringSessions (parentId trainerId athleteId : String)
    (startDate endDate : DateTime) (pat : RecPattern) (duration : Rat)
    (st : DBState) : DBState × List Session :=
  genLoop trainerId athleteId parentId endDate pat duration st (advanceDate startDate pat)

/-- Embeds `createRecurringSessions` in actions.ts.  `defaultHorizon` embeds
`new Date(Date.now() + 90 * 24 * 60 * 60 * 1000)`, the 90-day default
end date computed from the invocation clock. -/
def createRecurringSessions (numToString : Nat → String) (parseDate : String → DateTime)
    (defaultHorizon : DateTime) (nowMs : Nat) (st : DBState)
    (sessionData : Option ParsedSession) (trainerId : String) :
    DBState × ExecutionResult :=
  match sessionData with
  | none =>
    (st, { success := false, message := "Failed to create recurring sessions",
           errMsg := some "TypeError" })
  | some sd =>
    match resolveAthleteId numToString nowMs st sd trainerId with
    | .error _ =>
      (st, { success := false, message := "Failed to create recurring sessions",
             errMsg := some "Unique constraint failed on the fields: (Athlete.email)" })
    | .ok (st1, athleteId) =>
      if h : optStrTruthy athleteId then
        let aid := athleteId.get (by cases athleteId <;> simp_all [optStrTruthy])
        let (st2, parent) := sessionCreate st1 trainerId aid (parseDate sd.scheduledAt)
          sd.duration true sd.recurrencePattern (sd.recurrenceEndDate.map parseDate) none
        let endDate := match sd.recurrenceEndDate with
          | some e => parseDate e
          | none => defaultHorizon
        match sd.recurrencePattern with
        | none =>
          -- `sessionData.recurrencePattern!` with no pattern: `advanceDate`'s
          -- switch has no default and never advances, so the while loop does
          -- not terminate.  This branch is unreachable for every claim (all
          -- quantify over the four valid patterns); it is marked as such.
          (st2, { success := false, message := "unreachable: non-terminating loop",
                  errMsg := some "non-termination" })
        | some pat =>
          let (st3, children) := generateRecurringSessions parent.id trainerId aid
            (parseDate sd.scheduledAt) endDate pat sd.duration st2
          (st3, { success := true,
                  message := "Created " ++ toString (children.length + 1) ++
                    " recurring sessions for " ++ sd.athleteName,
                  sessionId := some parent.id,
                  sessionIds := some (children.map (·.id)) })
      else
        (st1, { success := false, message := "Could not identify or create athlete",
                errMsg := some "Missing athlete ID" })

/-- The athlete condition of the `findFirst` in `cancelSession`: relation
filter `{id}` when an athlete id is given (truthy), else the
`OR: [{firstName: {contains: first-name-part}}]` relation filter on the
session's related athlete. -/
def cancelAthleteMatch (st : DBState) (sd : ParsedSession) (s : Session) : Bool :=
  match sd.athleteId with
  | some aid =>
    if aid = "" then
      match st.athletes.find? (fun a => a.id == s.athleteId) with
      | some a => containsSubstr a.firstName (splitNameFirst sd.athleteName)
      | none => false
    else s.athleteId == aid
  | none =>
    match st.athletes.find? (fun a => a.id == s.athleteId) with
    | some a => containsSubstr a.firstName (splitNameFirst sd.athleteName)
    | none => false

/-- The `where` filter of the `findFirst` in `cancelSession`: trainer,
athlete, scheduled within `[setHours(0,0,0,0), setHours(23,59,59,999))`
of the target date (note the strict `lt`), and not yet cancelled. -/
def cancelFilter (st : DBState) (sd : ParsedSession) (trainerId : String)
    (target : DateTime) (s : Session) : Bool :=
  s.trainerId == trainerId &&
  cancelAthleteMatch st sd s &&
  decide (dayStart target ≤ s.scheduledAt) &&
  decide (s.scheduledAt < dayEnd target) &&
  s.cancelled == false

/-- Embeds `cancelSession` in actions.ts. -/
def cancelSession (parseDate : String → DateTime) (st : DBState)
    (sessionData : Option ParsedSession) (trainerId : String) :
    DBState × ExecutionResult :=
  match sessionData with
  | none =>
    (st, { success := false, message := "Failed to cancel session", errMsg := some "TypeError" })
  | some sd =>
    let target := parseDate sd.scheduledAt
    match st.sessions.find? (cancelFilter st sd trainerId target) with
    | none =>
      (st, { success := false, message := "Could not find a matching session to cancel",
             errMsg := some "Session not found" })
    | some s =>
      ({ st with sessions :=
          st.sessions.map (fun t => if t.id = s.id then { t with cancelled := true } else t) },
       { success := true, message := "Session cancelled for " ++ sd.athleteName,
         sessionId := some s.id })

/-- Embeds `createAthlete` in actions.ts. -/
def createAthlete (numToString : Nat → String) (nowMs : Nat) (st : DBState)
    (athleteData : ParsedAthlete) (trainerId : String) : DBState × ExecutionResult :=
  let email := match athleteData.email with
    | some e => if e = "" then placeholderEmail numToString athleteData.firstName
                  athleteData.lastName nowMs
                else e
    | none => placeholderEmail numToString athleteData.firstName athleteData.lastName nowMs
  match athleteCreate st athleteData.firstName athleteData.lastName email (some trainerId) with
  | .error _ =>
    (st, { success := false, message := "Failed to create athlete",
           errMsg := some "Unique constraint failed on the fields: (Athlete.email)" })
  | .ok (st1, a) =>
    (st1, { success := true, message := "Created new athlete: " ++ a.firstName ++ " " ++ a.lastName,
            athleteData := some (a.id, a.firstName, a.lastName) })

/-- Embeds `executeAction` in src/lib/parsing/actions.ts: dispatch on the action.
Note that `clarificationNeeded` is consulted only in the default
(`UNKNOWN`/`QUERY`/unhandled) branch. -/
def executeAction (numToString : Nat → String) (parseDate : String → DateTime)
    (defaultHorizon : DateTime) (nowMs : Nat) (st : DBState) (pr : ParseResult)
    (trainerId : String) : DBState × ExecutionResult :=
  match pr.action with
  | .CREATE_SESSION => createSession numToString parseDate nowMs st pr.data.session trainerId
  | .CREATE_RECURRING_SESSION =>
    createRecurringSessions numToString parseDate defaultHorizon nowMs st pr.data.session trainerId
  | .CANCEL_SESSION => cancelSession parseDate st pr.data.session trainerId
  | .CREATE_ATHLETE =>
    match pr.data.athlete with
    | none =>
      (st, { success := false, message := "No athlete data provided",
             errMsg := some "Missing athlete data" })
    | some a => createAthlete numToString nowMs st a trainerId
  | _ =>
    (st, { success := false,
           message := match pr.clarificationNeeded with
             | some c => if c = "" then "Unknown action" else c
             | none => "Unknown action",
           errMsg := some "Action not supported" })

/-! ## Trainer-scoped QUERY executor (`executeQuery`) -/

/-- The `whereClause` built for `SESSIONS_LIST`/`SESSIONS_COUNT`: trainer,
optional date range, optional athlete, and the status mapping
(`completed`/`upcoming`/`cancelled`; anything else or absent is no filter).
JS truthiness guards the optional filters. -/
def querySessionFilter (parseDate : String → DateTime) (q : ParsedQuery)
    (trainerId : String) (s : Session) : Bool :=
  s.trainerId == trainerId &&
  (if optStrTruthy q.dateFrom then decide (parseDate (q.dateFrom.getD "") ≤ s.scheduledAt)
   else true) &&
  (if optStrTruthy q.dateTo then decide (s.scheduledAt ≤ parseDate (q.dateTo.getD ""))
   else true) &&
  (if optStrTruthy q.athleteId then s.athleteId == q.athleteId.getD "" else true) &&
  (match q.status with
   | some "completed" => s.completed && !s.cancelled
   | some "upcoming" => !s.completed && !s.cancelled
   | some "cancelled" => s.cancelled
   | _ => true)

/-- Embeds `include: { athlete: true }` + the rendered athlete name
`` `${s.athlete.firstName} ${s.athlete.lastName}` ``. -/
def athleteNameOf (st : DBState) (s : Session) : String :=
  match st.athletes.find? (fun a => a.id == s.athleteId) with
  | some a => a.firstName ++ " " ++ a.lastName
  | none => ""

def sessionToView (st : DBState) (s : Session) : SessionView :=
  ⟨s.id, athleteNameOf st s, s.scheduledAt, s.duration, s.completed, s.cancelled⟩

/-- Embeds `executeQuery` from the query-capable executor: reads only, dispatching
on the query type string.  `now` embeds the `new Date()` taken in the
`SCHEDULE_SUMMARY` branch. -/
def executeQuery (parseDate : String → DateTime) (now : DateTime) (st : DBState)
    (q : ParsedQuery) (trainerId : String) : DBState × ExecutionResult :=
  match q.queryType with
  | "SESSIONS_LIST" =>
    let rows := ((st.sessions.filter (querySessionFilter parseDate q trainerId)).mergeSort
      (fun a b => decide (a.scheduledAt ≤ b.scheduledAt))).take 50
    (st, { success := true, message := q.description,
           queryResult := some { sessions := some (rows.map (sessionToView st)) } })
  | "SESSIONS_COUNT" =>
    (st, { success := true, message := q.description,
           queryResult := some
             { count := some (st.sessions.filter (querySessionFilter parseDate q trainerId)).length } })
  | "ATHLETES_LIST" =>
    let rows := (st.athletes.filter (fun a => a.trainerId == some trainerId)).mergeSort
      (fun a b => decide (a.firstName ≤ b.firstName))
    (st, { success := true, message := q.description,
           queryResult := some
             { athletes := some (rows.map (fun a => ⟨a.id, a.firstName, a.lastName, a.email⟩)) } })
  | "ATHLETES_COUNT" =>
    (st, { success := true, message := q.description,
           queryResult := some
             { count := some (st.athletes.filter (fun a => a.trainerId == some trainerId)).length } })
  | "SCHEDULE_SUMMARY" =>
    let mine := st.sessions.filter (fun s => s.trainerId == trainerId)
    let summ : ScheduleSummary :=
      ⟨mine.length,
       (mine.filter (fun s => s.completed)).length,
       (mine.filter (fun s => !s.completed && !s.cancelled &&
          decide (now ≤ s.scheduledAt))).length,
       (st.athletes.filter (fun a => a.trainerId == some trainerId)).length⟩
    (st, { success := true, message := q.description,
           queryResult := some { summary := some summ } })
  | qt =>
    (st, { success := false, message := "Unknown query type",
           errMsg := some ("Query type " ++ qt ++ " not supported") })

/-! ## Check-in handler core (POST /api/checkin, after athlete resolution) -/

/-- Embeds `db.checkIn.create`: throws if the (non-null) session already has a
check-in (`CheckIn_sessionId_key` unique constraint). -/
def checkInCreate (st : DBState) (athleteId : String) (sessionId : Option String)
    (matched : Bool) : Except Unit (DBState × CheckIn) :=
  if sessionId.isSome ∧ st.checkIns.any (fun c => c.sessionId == sessionId) then .error ()
  else
    let c : CheckIn := ⟨"checkin" ++ toString st.nextId, athleteId, sessionId, matched⟩
    .ok ({ st with checkIns := st.checkIns ++ [c], nextId := st.nextId + 1 }, c)

/-- The `findFirst` filter for "today's session": same athlete, scheduled in
`[setHours(0,0,0,0), setHours(23,59,59,999)]` (note the inclusive `lte`),
not cancelled, not completed. -/
def todaySessionFilter (athleteId : String) (today : DateTime) (s : Session) : Bool :=
  s.athleteId == athleteId &&
  decide (dayStart today ≤ s.scheduledAt) &&
  decide (s.scheduledAt ≤ dayEnd today) &&
  !s.cancelled && !s.completed

structure CheckInOutcome where
  ok : Bool
  matchedSession : Option Session := none
  nextSession : Option Session := none

/-- The check-in POST core: find today's earliest open session, record the
`CheckIn` (matched to it when present), and when matched mark the session
completed with a completion timestamp; otherwise look up the next upcoming
session.  An exception (the unique-constraint throw) reaches the route's
catch before any write, returning a 500 with no data change. -/
def processCheckIn (st : DBState) (athleteId : String) (now : DateTime) :
    DBState × CheckInOutcome :=
  let todaySession := (st.sessions.filter (todaySessionFilter athleteId now)).argmin
    Session.scheduledAt
  match checkInCreate st athleteId (todaySession.map (·.id)) todaySession.isSome with
  | .error _ => (st, { ok := false })
  | .ok (st1, _) =>
    match todaySession with
    | some ts =>
      ({ st1 with sessions := st1.sessions.map (fun t =>
          if t.id = ts.id then { t with completed := true, completedAt := some now } else t) },
       { ok := true, matchedSession := some ts })
    | none =>
      let next := (st1.sessions.filter (fun s => s.athleteId == athleteId &&
        decide (dayEnd now < s.scheduledAt) && !s.cancelled)).argmin Session.scheduledAt
      (st1, { ok := true, nextSession := next })

/-! ## Admin free-form executor (src/lib/admin-actions, embedded from db.ts
sources: processArgs, generateUndoOperations, executeAdminAction) -/

def HASH_PLACEHOLDER : String := "$HASH_PLACEHOLDER$"

def PASSWORD_PREFIX : String := "$PASSWORD:"

/-- Embeds `/^\d{4}-\d{2}-\d{2}T/.test(value)` -/
def matchesIsoDate (s : String) : Bool :=
  match s.data with
  | a :: b :: c :: d :: '-' :: e :: f :: '-' :: g :: h :: 'T' :: _ =>
    a.isDigit && b.isDigit && c.isDigit && d.isDigit &&
    e.isDigit && f.isDigit && g.isDigit && h.isDigit
  | _ => false

/-- The `convertDates` walk over an object's fields: ISO-prefixed strings
become `Date`s; plain (non-array) objects are recursed into; everything
else — arrays included (`!Array.isArray(value)` guards the recursion and
the string test only sees direct values) — is left as is. -/
def convertFields : List (String × JVal) → List (String × JVal)
  | [] => []
  | (k, .str s) :: rest =>
    (k, if matchesIsoDate s then .date s else .str s) :: convertFields rest
  | (k, .obj fs) :: rest => (k, .obj (convertFields fs)) :: convertFields rest
  | (k, v) :: rest => (k, v) :: convertFields rest

/-- Embeds `convertDates` is only ever applied to objects (the cloned args and
nested plain objects). -/
def convertDates : JVal → JVal
  | .obj fs => .obj (convertFields fs)
  | v => v

/-- Object spread `{...w, k: v}`; a non-object spread contributes no fields. -/
def spreadSet (w : JVal) (k : String) (v : JVal) : JVal :=
  match w with
  | .obj fs => .obj (setKey fs k v)
  | _ => .obj [(k, v)]

/-- The password-placeholder substitution at `processed.data?.passwordHash`;
`hash` is the external bcrypt `hashPassword`. -/
def passwordStep (hash : String → String) (args : JVal) : JVal :=
  match args with
  | .obj fs =>
    match (JVal.obj fs).get "data" with
    | some (.obj dataFs) =>
      match (JVal.obj dataFs).get "passwordHash" with
      | some (.str s) =>
        if s = HASH_PLACEHOLDER then
          .obj (setKey fs "data" (.obj (setKey dataFs "passwordHash" (.str (hash "trainer123")))))
        else if s.startsWith PASSWORD_PREFIX then
          .obj (setKey fs "data" (.obj (setKey dataFs "passwordHash"
            (.str (hash ((s.drop PASSWORD_PREFIX.length).dropRight 1))))))
        else args
      | _ => args
    | _ => args
  | _ => args

/-- Embeds `processArgs`: deep-clone (identity in a pure embedding), substitute the
password placeholder, then run the date-conversion walk. -/
def processArgs (hash : String → String) (args : JVal) : JVal :=
  convertDates (passwordStep hash args)

structure PrismaOperation where
  model : String
  method : String
  args : JVal
  description : String

structure UndoOperation where
  model : String
  method : String
  args : JVal

structure AdminParseResult where
  operations : List PrismaOperation
  humanReadableSummary : String
  clarificationNeeded : Option String
  isQuery : Bool

structure AdminExecutionResult where
  success : Bool
  message : String
  dataCount : Option Nat := none
  dataItems : Option (List JVal) := none
  dataResult : Option JVal := none
  results : Option (List JVal) := none
  undoOperations : Option (List UndoOperation) := none

/-- Embeds `generateUndoOperations` from the admin executor.  The `update` branch
fetches the row only after the update already ran and derives nothing from
it (the documented gap), so it contributes no undo descriptor; the read it
performs cannot change state. -/
def generateUndoOperations (op : PrismaOperation) (result : JVal) : List UndoOperation :=
  match op.method with
  | "create" =>
    match result.get "id" with
    | some v =>
      if v.truthy then [⟨op.model, "delete", .obj [("where", .obj [("id", v)])]⟩] else []
    | none => []
  | "delete" => []
  | "update" => []
  | "updateMany" =>
    match op.args.get "where", op.args.get "data" with
    | some w, some dt =>
      if w.truthy && dt.truthy && (op.model == "Session") then
        match dt.get "cancelled" with
        | some (.bool true) =>
          [⟨"Session", "updateMany",
            .obj [("where", spreadSet w "cancelled" (.bool true)),
                  ("data", .obj [("cancelled", .bool false)])]⟩]
        | some (.bool false) =>
          [⟨"Session", "updateMany",
            .obj [("where", spreadSet w "cancelled" (.bool false)),
                  ("data", .obj [("cancelled", .bool true)])]⟩]
        | _ => []
      else []
    | _, _ => []
  | _ => []

/-- The model names for which `(db as any)[model.toLowerCase()]` is a Prisma
delegate (the client's `checkIn` property never matches a lowercased name). -/
def validAdminModels : List String := ["user", "trainer", "athlete", "session"]

/-- Function-valued members of every generated Prisma model delegate
(Prisma Client API).  The runtime gate is
`typeof prismaModel[method] === 'function'`, which accepts any of these —
not only the seven verbs named in the `PrismaOperation` TS type. -/
def prismaDelegateMethods : List String :=
  ["create", "update", "updateMany", "delete", "deleteMany", "findMany", "findFirst",
   "findUnique", "findUniqueOrThrow", "findFirstOrThrow", "createMany", "upsert",
   "count", "aggregate", "groupBy"]

/-- Embeds `!prismaModel || typeof prismaModel[method] !== 'function'` negated. -/
def validAdminOp (op : PrismaOperation) : Bool :=
  validAdminModels.contains (jsToLower op.model) && prismaDelegateMethods.contains op.method

/-- The `for (const op of operations)` loop inside the `try`: process args,
check the dispatch gate, run the Prisma call (`applyOp`, the external ORM,
over an abstract store `σ`), collect results and undo descriptors.  A gate
failure or a throwing call aborts the loop; the state reached so far is
kept (no rollback). -/
def runOps {σ : Type} (hash : String → String)
    (applyOp : σ → String → String → JVal → Except String (σ × JVal)) :
    σ → List PrismaOperation → σ × Except String (List JVal × List UndoOperation)
  | st, [] => (st, .ok ([], []))
  | st, op :: rest =>
    let processedArgs := processArgs hash op.args
    if validAdminOp op then
      match applyOp st (jsToLower op.model) op.method processedArgs with
      | .error e => (st, .error e)
      | .ok (st1, result) =>
        let undos := generateUndoOperations op result
        match runOps hash applyOp st1 rest with
        | (st2, .error e) => (st2, .error e)
        | (st2, .ok (results, undos2)) => (st2, .ok (result :: results, undos ++ undos2))
    else (st, .error ("Invalid operation: " ++ op.model ++ "." ++ op.method))

/-- Embeds `executeAdminAction` from the admin executor. -/
def executeAdminAction {σ : Type} (hash : String → String)
    (applyOp : σ → String → String → JVal → Except String (σ × JVal))
    (st : σ) (pr : AdminParseResult) : σ × AdminExecutionResult :=
  if optStrTruthy pr.clarificationNeeded then
    (st, { success := false, message := pr.clarificationNeeded.getD "" })
  else if pr.operations.isEmpty then
    (st, { success := false, message := "No operations to execute" })
  else
    match runOps hash applyOp st pr.operations with
    | (st1, .error e) =>
      (st1, { success := false, message := "Failed to execute: " ++ e })
    | (st1, .ok (results, undos)) =>
      if pr.isQuery && !results.isEmpty then
        match results with
        | (.arr items) :: _ =>
          (st1, { success := true,
                  message := pr.humanReadableSummary ++ "\n\nFound " ++
                    toString items.length ++ " result(s).",
                  results := some results,
                  dataCount := some items.length, dataItems := some items })
        | r :: _ =>
          (st1, { success := true, message := pr.humanReadableSummary,
                  results := some results, dataResult := some r })
        | [] =>
          (st1, { success := true, message := pr.humanReadableSummary,
                  results := some results })
      else
        (st1, { success := true, message := pr.humanReadableSummary,
                results := some results,
                undoOperations := if undos.isEmpty then none else some undos })

/-! ## Response parser / validator (src/lib/parsing/schema.ts) -/

def backquoteChar : Char := "`".front

/-- The global replace `.replace(/```json?\n?/g, '')`: scan left to right;
at each match of three backquotes + "jso" + optional "n" + optional newline
drop the (greedy) match, otherwise keep one character and continue. -/
def stripFenceMarks : List Char → List Char
  | a :: b :: c :: 'j' :: 's' :: 'o' :: rest =>
    if a = backquoteChar ∧ b = backquoteChar ∧ c = backquoteChar then
      match rest with
      | 'n' :: '\n' :: r => stripFenceMarks r
      | 'n' :: r => stripFenceMarks r
      | '\n' :: r => stripFenceMarks r
      | r => stripFenceMarks r
    else a :: stripFenceMarks (b :: c :: 'j' :: 's' :: 'o' :: rest)
  | a :: rest => a :: stripFenceMarks rest
  | [] => []
termination_by l => l.length
decreasing_by all_goals simp_arith [List.length_cons]

/-- The fence-stripping block of `parseClaudeResponse`: trim; when the text
starts with a code fence, apply the two regex replaces and trim again.
`.replace(/```$/g, '')` removes a single trailing fence. -/
def stripFencesJs (s : String) : String :=
  let t := s.trim
  if t.startsWith "```" then
    let u := String.mk (stripFenceMarks t.data)
    let u2 := if u.endsWith "```" then u.dropRight 3 else u
    u2.trim
  else t

def parseActionName : String → Option ParsedAction
  | "CREATE_SESSION" => some .CREATE_SESSION
  | "CREATE_RECURRING_SESSION" => some .CREATE_RECURRING_SESSION
  | "UPDATE_SESSION" => some .UPDATE_SESSION
  | "CANCEL_SESSION" => some .CANCEL_SESSION
  | "CREATE_ATHLETE" => some .CREATE_ATHLETE
  | "QUERY" => some .QUERY
  | "UNKNOWN" => some .UNKNOWN
  | _ => none

def parseRecPatternName : String → Option RecPattern
  | "DAILY" => some .DAILY
  | "WEEKLY" => some .WEEKLY
  | "BIWEEKLY" => some .BIWEEKLY
  | "MONTHLY" => some .MONTHLY
  | _ => none

/-- Embeds `ParsedSessionSchema.parse` plus the null-to-undefined coercions applied
in `parseClaudeResponse`: nullable/optional fields collapse to `none`,
`duration` defaults to 60 when absent, the recurrence pattern must be one
of the four enum values when present. -/
def validateSession (j : JVal) : Option ParsedSession :=
  match j with
  | .obj _ => do
    let athleteId ← match j.get "athleteId" with
      | none => some none
      | some .null => some none
      | some (.str s) => some (some s)
      | some _ => none
    let athleteName ← match j.get "athleteName" with
      | some (.str s) => some s
      | _ => none
    let isNewAthlete ← match j.get "isNewAthlete" with
      | some (.bool b) => some b
      | _ => none
    let scheduledAt ← match j.get "scheduledAt" with
      | some (.str s) => some s
      | _ => none
    let duration ← match j.get "duration" with
      | none => some (60 : Rat)
      | some (.num q) => some q
      | some _ => none
    let recurrencePattern ← match j.get "recurrencePattern" with
      | none => some none
      | some .null => some none
      | some (.str s) =>
        match parseRecPatternName s with
        | some p => some (some p)
        | none => none
      | some _ => none
    let recurrenceEndDate ← match j.get "recurrenceEndDate" with
      | none => some none
      | some .null => some none
      | some (.str s) => some (some s)
      | some _ => none
    some ⟨athleteId, athleteName, isNewAthlete, scheduledAt, duration,
          recurrencePattern, recurrenceEndDate⟩
  | _ => none

/-- Embeds `ParsedAthleteSchema.parse` (`email` is optional but not nullable). -/
def validateAthlete (j : JVal) : Option ParsedAthlete :=
  match j with
  | .obj _ => do
    let firstName ← match j.get "firstName" with
      | some (.str s) => some s
      | _ => none
    let lastName ← match j.get "lastName" with
      | some (.str s) => some s
      | _ => none
    let email ← match j.get "email" with
      | none => some none
      | some (.str s) => some (some s)
      | some _ => none
    some ⟨firstName, lastName, email⟩
  | _ => none

/-- Embeds `ParseResultSchema.parse` plus the coercion into the internal
`ParseResult` type: action from the seven-element enum, confidence a number
in [0,1], `data` an object with optional session/athlete descriptors,
nullable-optional clarification, required summary. -/
def validateParseResult (j : JVal) : Option ParseResult :=
  match j with
  | .obj _ => do
    let action ← match j.get "action" with
      | some (.str s) => parseActionName s
      | _ => none
    let confidence ← match j.get "confidence" with
      | some (.num q) => if 0 ≤ q ∧ q ≤ 1 then some q else none
      | _ => none
    let dataObj ← match j.get "data" with
      | some v@(.obj _) => some v
      | _ => none
    let session ← match dataObj.get "session" with
      | none => some none
      | some sj =>
        match validateSession sj with
        | some s => some (some s)
        | none => none
    let athlete ← match dataObj.get "athlete" with
      | none => some none
      | some aj =>
        match validateAthlete aj with
        | some a => some (some a)
        | none => none
    let clarificationNeeded ← match j.get "clarificationNeeded" with
      | none => some none
      | some .null => some none
      | some (.str s) => some (some s)
      | some _ => none
    let humanReadableSummary ← match j.get "humanReadableSummary" with
      | some (.str s) => some s
      | _ => none
    some ⟨action, confidence, { session := session, athlete := athlete },
          clarificationNeeded, humanReadableSummary⟩
  | _ => none

/-- The canonical fallback returned from the catch block of
`parseClaudeResponse`. -/
def fallbackParseResult : ParseResult :=
  ⟨.UNKNOWN, 0, {}, some "Failed to parse the response. Please try again.",
    "Error parsing request"⟩

/-- Embeds `parseClaudeResponse`: strip fences, `JSON.parse` (the host primitive,
passed in as `jsonParse`; `none` models a parse throw), validate; any
failure lands in the catch block, which returns the canonical fallback. -/
def parseClaudeResponse (jsonParse : String → Option JVal) (responseText : String) :
    ParseResult :=
  match jsonParse (stripFencesJs responseText) with
  | none => fallbackParseResult
  | some j =>
    match validateParseResult j with
    | none => fallbackParseResult
    | some pr => pr

/-! ## Predicates for the date-conversion claims -/

/-- No ISO-prefixed string occurs at a position the `convertDates` walk can
reach (i.e. reachable through nested non-array objects only). -/
def isoFreeFields : List (String × JVal) → Bool
  | [] => true
  | (_, .str s) :: rest => !matchesIsoDate s && isoFreeFields rest
  | (_, .obj fs) :: rest => isoFreeFields fs && isoFreeFields rest
  | (_, _) :: rest => isoFreeFields rest

mutual
/-- An ISO-prefixed plain string occurs anywhere in the value, arrays
included. -/
def hasIsoDeep : JVal → Bool
  | .str s => matchesIsoDate s
  | .arr xs => hasIsoDeepList xs
  | .obj fs => hasIsoDeepFields fs
  | _ => false

def hasIsoDeepList : List JVal → Bool
  | [] => false
  | x :: xs => hasIsoDeep x || hasIsoDeepList xs

def hasIsoDeepFields : List (String × JVal) → Bool
  | [] => false
  | (_, v) :: fs => hasIsoDeep v || hasIsoDeepFields fs
end

/-! ## Spec-side definitions used to state the claims -/

/-- The `k`-fold pattern-step advance. -/
def advIter (pat : RecPattern) (k : Nat) (d : DateTime) : DateTime :=
  (fun x => advanceDate x pat)^[k] d

/-- Stated from the spec's words: "the number of pattern-step advances from
the start that land strictly within (start, end]".  The count ranges over
`k` up to a bound that provably exceeds every advance that can still land
inside the interval (each pattern step moves the date forward by at least
one day), keeping the definition executable. -/
def specChildCount (startDate endDate : DateTime) (pat : RecPattern) : Nat :=
  ((Finset.range (((endDate.key - startDate.key).toNat / 86400000) + 2)).filter
    (fun k => 1 ≤ k ∧ startDate < advIter pat k startDate ∧
      advIter pat k startDate ≤ endDate)).card

/-- The claim-side "within the target calendar day". -/
def sameCivilDay (a b : DateTime) : Prop :=
  a.year = b.year ∧ a.month = b.month ∧ a.day = b.day

/-! ## Theorems.  First, order facts about the date model. -/

theorem DateTime.le_key_iff {a b : DateTime} : a ≤ b ↔ a.key ≤ b.key := Iff.rfl

theorem DateTime.lt_key_iff {a b : DateTime} : a < b ↔ a.key < b.key := Iff.rfl

theorem key_le_nextDay (d : DateTime) : d.key + 86400000 ≤ (nextDay d).key := by
  have hm := d.month_lt
  have hd := d.day_le
  unfold nextDay
  split
  · simp only [DateTime.key]; omega
  · split
    · simp only [DateTime.key]; omega
    · simp only [DateTime.key]; omega

theorem key_le_addDays (n : Nat) (d : DateTime) : d.key ≤ (addDays n d).key := by
  induction n generalizing d with
  | zero => simp [addDays]
  | succ n ih =>
    have h1 := key_le_nextDay d
    have h2 := ih (nextDay d)
    simp only [addDays]
    omega

theorem key_le_addMonth (d : DateTime) : d.key + 86400000 ≤ (addMonth d).key := by
  have hm := d.month_lt
  have hd := d.day_le
  have hd1 := d.one_le_day
  unfold addMonth
  split
  · split
    · simp only [DateTime.key]; omega
    · split
      · simp only [DateTime.key]; omega
      · simp only [DateTime.key]; omega
  · simp only [DateTime.key]; omega

theorem key_le_advanceDate (d : DateTime) (pat : RecPattern) :
    d.key + 86400000 ≤ (advanceDate d pat).key := by
  cases pat
  · exact key_le_nextDay d
  · have h1 := key_le_nextDay d
    have h2 := key_le_addDays 6 (nextDay d)
    show d.key + 86400000 ≤ (addDays 6 (nextDay d)).key
    omega
  · have h1 := key_le_nextDay d
    have h2 := key_le_addDays 13 (nextDay d)
    show d.key + 86400000 ≤ (addDays 13 (nextDay d)).key
    omega
  · exact key_le_addMonth d

theorem lt_advanceDate (d : DateTime) (pat : RecPattern) : d < advanceDate d pat := by
  have := key_le_advanceDate d pat
  rw [DateTime.lt_key_iff]
  omega

theorem key_advIter_ge (pat : RecPattern) (k : Nat) (d : DateTime) :
    d.key + k * 86400000 ≤ (advIter pat k d).key := by
  induction k generalizing d with
  | zero => simp [advIter]
  | succ k ih =>
    have h1 := key_le_advanceDate d pat
    have h2 := ih (advanceDate d pat)
    unfold advIter at *
    rw [Function.iterate_succ_apply]
    push_cast at *
    omega

theorem le_advIter (pat : RecPattern) (k : Nat) (d : DateTime) : d ≤ advIter pat k d := by
  have h := key_advIter_ge pat k d
  rw [DateTime.le_key_iff]
  omega

theorem lt_advIter (pat : RecPattern) (k : Nat) (d : DateTime) (hk : 1 ≤ k) :
    d < advIter pat k d := by
  have h := key_advIter_ge pat k d
  rw [DateTime.lt_key_iff]
  omega

theorem advIter_succ_shift (pat : RecPattern) (k : Nat) (d : DateTime) :
    advIter pat (k + 1) d = advIter pat k (advanceDate d pat) := by
  unfold advIter
  exact Function.iterate_succ_apply (fun x => advanceDate x pat) k d

/-- The generated-children characterization: position `j` exists in the
loop's output iff the `j`-th advance from the loop's starting date is still
inside the horizon. -/
theorem genLoop_length_iff (tid aid pid : String) (endD : DateTime) (pat : RecPattern)
    (dur : Rat) (st : DBState) (cur : DateTime) :
    ∀ j : Nat,
      (j < ((genLoop tid aid pid endD pat dur st cur).2).length ↔
        advIter pat j cur ≤ endD) := by
  induction st, cur using genLoop.induct tid aid pid endD pat dur with
  | case1 st cur h p ih =>
    intro j
    rw [genLoop, dif_pos h]
    cases j with
    | zero =>
      simp only [advIter, Function.iterate_zero, id_eq, List.length_cons]
      exact ⟨fun _ => h, fun _ => by omega⟩
    | succ k =>
      have hk := ih k
      rw [show p = sessionCreate st tid aid cur dur true (some pat) none (some pid) from rfl] at hk
      rw [advIter_succ_shift]
      simp only [List.length_cons]
      constructor
      · intro hj; exact hk.mp (by omega)
      · intro hx; have := hk.mpr hx; omega
  | case2 st cur h =>
    intro j
    rw [genLoop, dif_neg h]
    simp only [List.length_nil]
    constructor
    · omega
    · intro hc
      exact absurd ((le_advIter pat j cur).trans hc) h

/-- Every session created by the loop carries the parent's identifier. -/
theorem genLoop_parent (tid aid pid : String) (endD : DateTime) (pat : RecPattern)
    (dur : Rat) (st : DBState) (cur : DateTime) :
    ∀ s ∈ (genLoop tid aid pid endD pat dur st cur).2, s.parentSessionId = some pid := by
  induction st, cur using genLoop.induct tid aid pid endD pat dur with
  | case1 st cur h p ih =>
    intro s hs
    rw [genLoop, dif_pos h] at hs
    simp only [List.mem_cons] at hs
    rcases hs with rfl | hs
    · rfl
    · exact ih s hs
  | case2 st cur h =>
    intro s hs
    rw [genLoop, dif_neg h] at hs
    simp at hs

/-- Helper: the generated-children count equals the spec-side count of
advances landing strictly within (start, end]. -/
theorem generate_length_eq_specChildCount (pid tid aid : String)
    (startDate endDate : DateTime) (pat : RecPattern) (dur : Rat) (st : DBState) :
    ((generateRecurringSessions pid tid aid startDate endDate pat dur st).2).length
      = specChildCount startDate endDate pat := by
  unfold generateRecurringSessions specChildCount
  set L := ((genLoop tid aid pid endDate pat dur st (advanceDate startDate pat)).2).length with hL
  have hiff := genLoop_length_iff tid aid pid endDate pat dur st (advanceDate startDate pat)
  rw [← hL] at hiff
  have hgood : ∀ k : Nat, (1 ≤ k ∧ startDate < advIter pat k startDate ∧
      advIter pat k startDate ≤ endDate) ↔ (1 ≤ k ∧ k ≤ L) := by
    intro k
    constructor
    · rintro ⟨h1, _h2, h3⟩
      refine ⟨h1, ?_⟩
      obtain ⟨m, rfl⟩ : ∃ m, k = m + 1 := ⟨k - 1, by omega⟩
      rw [advIter_succ_shift] at h3
      have := (hiff m).mpr h3
      omega
    · rintro ⟨h1, hk⟩
      obtain ⟨m, rfl⟩ : ∃ m, k = m + 1 := ⟨k - 1, by omega⟩
      have h3 := (hiff m).mp (by omega)
      rw [← advIter_succ_shift] at h3
      exact ⟨h1, lt_advIter pat (m + 1) startDate (by omega), h3⟩
  have hbound : ∀ k : Nat, advIter pat k startDate ≤ endDate →
      k < ((endDate.key - startDate.key).toNat / 86400000) + 2 := by
    intro k hk
    have hge := key_advIter_ge pat k startDate
    rw [DateTime.le_key_iff] at hk
    have hkk : k * 86400000 ≤ (endDate.key - startDate.key).toNat := by omega
    have hdiv := (Nat.le_div_iff_mul_le (k := 86400000) (by norm_num)).mpr hkk
    omega
  have hset : (Finset.range (((endDate.key - startDate.key).toNat / 86400000) + 2)).filter
      (fun k => 1 ≤ k ∧ startDate < advIter pat k startDate ∧
        advIter pat k startDate ≤ endDate) = Finset.Icc 1 L := by
    ext k
    simp only [Finset.mem_filter, Finset.mem_range, Finset.mem_Icc]
    constructor
    · rintro ⟨_, hg⟩
      exact (hgood k).mp hg
    · intro hkL
      have hg := (hgood k).mpr hkL
      exact ⟨hbound k hg.2.2, hg⟩
  rw [hset, Nat.card_Icc]
  omega

/-- C2: for every valid recurring-session input, the number of generated
child sessions equals the number of pattern-step advances from the start
landing strictly within (start, end] — for any end date, covering both the
explicit recurrence end date and the 90-day default horizon — and each
child carries the parent's identifier; concretely, WEEKLY from 2024-01-02
to 2024-01-23 yields exactly 3 children (plus the separately created
parent). -/
theorem claim_C2_recurring_child_count :
    (∀ (pid tid aid : String) (startDate endDate : DateTime) (pat : RecPattern)
        (dur : Rat) (st : DBState),
      ((generateRecurringSessions pid tid aid startDate endDate pat dur st).2).length
        = specChildCount startDate endDate pat ∧
      ∀ s ∈ (generateRecurringSessions pid tid aid startDate endDate pat dur st).2,
        s.parentSessionId = some pid) ∧
    ((generateRecurringSessions "parent" "t1" "a1"
        ⟨2024, 0, 2, 0, by omega, by omega, by omega, by omega⟩
        ⟨2024, 0, 23, 0, by omega, by omega, by omega, by omega⟩
        .WEEKLY 60 ⟨[], [], [], 0⟩).2).length = 3 := by
  constructor
  · intro pid tid aid startDate endDate pat dur st
    exact ⟨generate_length_eq_specChildCount pid tid aid startDate endDate pat dur st,
           genLoop_parent tid aid pid endDate pat dur st (advanceDate startDate pat)⟩
  · have hiff := genLoop_length_iff "t1" "a1" "parent"
      ⟨2024, 0, 23, 0, by omega, by omega, by omega, by omega⟩ .WEEKLY 60
      ⟨[], [], [], 0⟩
      (advanceDate ⟨2024, 0, 2, 0, by omega, by omega, by omega, by omega⟩ .WEEKLY)
    have h2 := (hiff 2).mpr (by decide)
    have h3 := (hiff 3)
    have h3' : ¬ (3 < ((genLoop "t1" "a1" "parent"
        ⟨2024, 0, 23, 0, by omega, by omega, by omega, by omega⟩ .WEEKLY 60
        ⟨[], [], [], 0⟩
        (advanceDate ⟨2024, 0, 2, 0, by omega, by omega, by omega, by omega⟩
          .WEEKLY)).2).length) := by
      intro hcon
      exact absurd (h3.mp hcon) (by decide)
    unfold generateRecurringSessions
    omega

/-- C2 witness: the child-count identity at a concrete daily recurrence. -/
theorem claim_C2_recurring_child_count_witness :
    ((generateRecurringSessions "p" "t" "a"
        ⟨2024, 0, 2, 0, by omega, by omega, by omega, by omega⟩
        ⟨2024, 0, 5, 0, by omega, by omega, by omega, by omega⟩
        .DAILY 60 ⟨[], [], [], 0⟩).2).length =
      specChildCount ⟨2024, 0, 2, 0, by omega, by omega, by omega, by omega⟩
        ⟨2024, 0, 5, 0, by omega, by omega, by omega, by omega⟩ .DAILY :=
  (claim_C2_recurring_child_count.1 "p" "t" "a"
    ⟨2024, 0, 2, 0, by omega, by omega, by omega, by omega⟩
    ⟨2024, 0, 5, 0, by omega, by omega, by omega, by omega⟩
    .DAILY 60 ⟨[], [], [], 0⟩).1

/-- C1: for every JSON.parse behavior and raw model-response text, the
response parser is total and returns either the coercion of a
schema-validated value or exactly the canonical fallback (action UNKNOWN,
confidence 0, empty data, fixed clarification message, fixed summary);
no failure escapes to the caller. -/
theorem claim_C1_parser_never_throws :
    (∀ (jsonParse : String → Option JVal) (responseText : String),
      parseClaudeResponse jsonParse responseText = fallbackParseResult ∨
      ∃ j pr, jsonParse (stripFencesJs responseText) = some j ∧
        validateParseResult j = some pr ∧
        parseClaudeResponse jsonParse responseText = pr) ∧
    fallbackParseResult =
      ⟨.UNKNOWN, 0, {}, some "Failed to parse the response. Please try again.",
        "Error parsing request"⟩ := by
  constructor
  · intro jp text
    unfold parseClaudeResponse
    cases hj : jp (stripFencesJs text) with
    | none => left; rfl
    | some j =>
      cases hv : validateParseResult j with
      | none => left; simp [hv]
      | some pr => right; exact ⟨j, pr, rfl, hv, by simp [hv]⟩
  · rfl

/-- A scheduled time inside the `[setHours(0,0,0,0), setHours(23,59,59,999))`
window of the target date lies on the target's calendar day. -/
theorem window_sameCivilDay {target x : DateTime}
    (h1 : dayStart target ≤ x) (h2 : x < dayEnd target) : sameCivilDay x target := by
  rw [DateTime.le_key_iff] at h1
  rw [DateTime.lt_key_iff] at h2
  simp only [dayStart, dayEnd, DateTime.key] at h1 h2
  have hm1 := x.month_lt
  have hd1 := x.day_le
  have hd1' := x.one_le_day
  have hs1 := x.ms_lt
  have hm2 := target.month_lt
  have hd2 := target.day_le
  have hd2' := target.one_le_day
  have hs2 := target.ms_lt
  refine ⟨?_, ?_, ?_⟩ <;> omega

/-- C8: when no not-yet-cancelled session for the resolved athlete lies on
the target calendar day, CANCEL_SESSION returns the "not found" failure and
leaves the store unchanged; when the `findFirst` filter does match, the
first matching session is marked cancelled. -/
theorem claim_C8_cancel_session (pd : String → DateTime) (st : DBState)
    (sd : ParsedSession) (tid : String) :
    ((∀ s ∈ st.sessions, s.trainerId = tid → cancelAthleteMatch st sd s = true →
        sameCivilDay s.scheduledAt (pd sd.scheduledAt) → s.cancelled = true) →
      cancelSession pd st (some sd) tid =
        (st, { success := false, message := "Could not find a matching session to cancel",
               errMsg := some "Session not found" })) ∧
    (∀ s, st.sessions.find? (cancelFilter st sd tid (pd sd.scheduledAt)) = some s →
      cancelSession pd st (some sd) tid =
        ({ st with sessions := st.sessions.map (fun t =>
            if t.id = s.id then { t with cancelled := true } else t) },
         { success := true, message := "Session cancelled for " ++ sd.athleteName,
           sessionId := some s.id })) := by
  constructor
  · intro hno
    have hfind : st.sessions.find? (cancelFilter st sd tid (pd sd.scheduledAt)) = none := by
      rw [List.find?_eq_none]
      intro s hs hmatch
      unfold cancelFilter at hmatch
      simp only [Bool.and_eq_true, beq_iff_eq, decide_eq_true_eq] at hmatch
      obtain ⟨⟨⟨⟨htr, hath⟩, hge⟩, hlt⟩, hcanc⟩ := hmatch
      have hday := window_sameCivilDay hge hlt
      have := hno s hs htr hath hday
      rw [this] at hcanc
      exact Bool.true_eq_false ▸ hcanc
    unfold cancelSession
    simp only [hfind]
  · intro s hfind
    unfold cancelSession
    simp only [hfind]

/-- C8 witness: on an empty store, cancelling finds nothing, reports the
"not found" failure and changes nothing. -/
theorem claim_C8_cancel_session_witness :
    cancelSession (fun _ => ⟨2024, 0, 2, 0, by omega, by omega, by omega, by omega⟩)
      ⟨[], [], [], 0⟩ (some ⟨none, "John", false, "2024-01-02T10:00:00Z", 60, none, none⟩)
      "t1" =
      (⟨[], [], [], 0⟩,
       { success := false, message := "Could not find a matching session to cancel",
         errMsg := some "Session not found" }) :=
  (claim_C8_cancel_session (fun _ => ⟨2024, 0, 2, 0, by omega, by omega, by omega, by omega⟩)
      ⟨[], [], [], 0⟩ ⟨none, "John", false, "2024-01-02T10:00:00Z", 60, none, none⟩ "t1").1
    (by intro s hs _ _ _; simp at hs)

/-- C4: the undo list derived per executed admin mutation: a `create` with a
(truthy) id yields exactly the delete-by-id descriptor; `delete` yields
none; a single-row `update` yields none (prior values are never restored);
`updateMany` on Session setting the `cancelled` boolean yields the
structural inverse filter/value flip; `updateMany` on other models, or on
Session without a `cancelled` boolean in its data, yields none. -/
theorem claim_C4_undo_operations :
    (∀ (op : PrismaOperation) (res v : JVal),
      op.method = "create" → res.get "id" = some v → v.truthy = true →
      generateUndoOperations op res =
        [⟨op.model, "delete", .obj [("where", .obj [("id", v)])]⟩]) ∧
    (∀ (op : PrismaOperation) (res : JVal), op.method = "delete" →
      generateUndoOperations op res = []) ∧
    (∀ (op : PrismaOperation) (res : JVal), op.method = "update" →
      generateUndoOperations op res = []) ∧
    (∀ (op : PrismaOperation) (res w dt : JVal) (b : Bool),
      op.method = "updateMany" → op.model = "Session" →
      op.args.get "where" = some w → w.truthy = true →
      op.args.get "data" = some dt → dt.truthy = true →
      dt.get "cancelled" = some (.bool b) →
      generateUndoOperations op res =
        [⟨"Session", "updateMany",
          .obj [("where", spreadSet w "cancelled" (.bool b)),
                ("data", .obj [("cancelled", .bool !b)])]⟩]) ∧
    (∀ (op : PrismaOperation) (res : JVal), op.method = "updateMany" →
      op.model ≠ "Session" → generateUndoOperations op res = []) ∧
    (∀ (op : PrismaOperation) (res dt : JVal), op.method = "updateMany" →
      op.args.get "data" = some dt → dt.get "cancelled" = none →
      generateUndoOperations op res = []) := by
  refine ⟨?_, ?_, ?_, ?_, ?_, ?_⟩
  · intro op res v hm hid htr
    unfold generateUndoOperations
    rw [hm, hid]
    simp [htr]
  · intro op res hm
    unfold generateUndoOperations
    rw [hm]
    rfl
  · intro op res hm
    unfold generateUndoOperations
    rw [hm]
    rfl
  · intro op res w dt b hm hmodel hw hwt hd hdt hc
    unfold generateUndoOperations
    rw [hm, hw, hd]
    have hms : (op.model == "Session") = true := by simp [hmodel]
    cases b <;> simp [hwt, hdt, hms, hc]
  · intro op res hm hmodel
    unfold generateUndoOperations
    rw [hm]
    have hms : (op.model == "Session") = false := by simp [hmodel]
    cases hw : op.args.get "where" <;> cases hd : op.args.get "data" <;> simp [hms]
  · intro op res dt hm hd hc
    unfold generateUndoOperations
    rw [hm, hd]
    cases hw : op.args.get "where" <;> simp [hc]

/-- C4 witness: concrete instances of every undo rule. -/
theorem claim_C4_undo_operations_witness :
    (generateUndoOperations ⟨"Athlete", "create", .obj [], "d"⟩ (.obj [("id", .str "x1")]) =
      [⟨"Athlete", "delete", .obj [("where", .obj [("id", .str "x1")])]⟩]) ∧
    (generateUndoOperations ⟨"Athlete", "delete", .obj [], "d"⟩ .null = []) ∧
    (generateUndoOperations ⟨"Athlete", "update", .obj [], "d"⟩ .null = []) ∧
    (generateUndoOperations
        ⟨"Session", "updateMany",
          .obj [("where", .obj [("trainerId", .str "t1")]),
                ("data", .obj [("cancelled", .bool true)])], "d"⟩ .null =
      [⟨"Session", "updateMany",
        .obj [("where", .obj [("trainerId", .str "t1"), ("cancelled", .bool true)]),
              ("data", .obj [("cancelled", .bool false)])]⟩]) ∧
    (generateUndoOperations ⟨"Trainer", "updateMany",
        .obj [("where", .obj []), ("data", .obj [("userId", .str "u")])], "d"⟩ .null = []) ∧
    (generateUndoOperations ⟨"Session", "updateMany",
        .obj [("where", .obj []), ("data", .obj [("trainerId", .str "t2")])], "d"⟩ .null = []) := by
  refine ⟨?_, ?_, ?_, ?_, ?_, ?_⟩
  · exact claim_C4_undo_operations.1 _ _ (.str "x1") rfl rfl (by decide)
  · exact claim_C4_undo_operations.2.1 _ .null rfl
  · exact claim_C4_undo_operations.2.2.1 _ .null rfl
  · have := claim_C4_undo_operations.2.2.2.1
      ⟨"Session", "updateMany",
        .obj [("where", .obj [("trainerId", .str "t1")]),
              ("data", .obj [("cancelled", .bool true)])], "d"⟩ .null
      (.obj [("trainerId", .str "t1")]) (.obj [("cancelled", .bool true)]) true
      rfl rfl rfl (by decide) rfl (by decide) rfl
    simpa [spreadSet, setKey] using this
  · exact claim_C4_undo_operations.2.2.2.2.1 _ .null rfl (by decide)
  · exact claim_C4_undo_operations.2.2.2.2.2 _ .null (.obj [("trainerId", .str "t2")]) rfl rfl rfl

/-- Sequencing of the admin loop: a batch runs its prefix first; the suffix
only runs if the prefix succeeded, continuing from the prefix's final state. -/
theorem runOps_append {σ : Type} (hash : String → String)
    (ap : σ → String → String → JVal → Except String (σ × JVal))
    (l1 l2 : List PrismaOperation) (st : σ) :
    runOps hash ap st (l1 ++ l2) =
      match runOps hash ap st l1 with
      | (st1, .error e) => (st1, .error e)
      | (st1, .ok (r1, u1)) =>
        match runOps hash ap st1 l2 with
        | (st2, .error e) => (st2, .error e)
        | (st2, .ok (r2, u2)) => (st2, .ok (r1 ++ r2, u1 ++ u2)) := by
  induction l1 generalizing st with
  | nil =>
    simp only [List.nil_append, runOps]
    rcases h2 : runOps hash ap st l2 with ⟨st2, r2⟩
    cases r2 with
    | error e => rfl
    | ok p =>
      rcases p with ⟨r, u⟩
      simp
  | cons op rest ih =>
    simp only [List.cons_append, runOps]
    by_cases hv : validAdminOp op = true
    · simp only [hv, if_true]
      cases hap : ap st (jsToLower op.model) op.method (processArgs hash op.args) with
      | error e => rfl
      | ok p =>
        rcases p with ⟨st1, result⟩
        simp only [List.append_eq]
        rw [ih st1]
        rcases hrest : runOps hash ap st1 rest with ⟨stA, rA⟩
        cases rA with
        | error e => simp
        | ok pA =>
          rcases pA with ⟨resA, undA⟩
          rcases hl2 : runOps hash ap stA l2 with ⟨stB, rB⟩
          cases rB with
          | error e => simp [hl2]
          | ok pB =>
            rcases pB with ⟨resB, undB⟩
            simp [hl2, List.append_assoc]
    · simp only [Bool.not_eq_true] at hv
      simp only [hv, Bool.false_eq_true, if_false]

/-- C3 counterexample: the runtime dispatch gate is
`typeof prismaModel[method] === 'function'`, so a verb outside the
seven-verb table of the claim — here `count`, a standard Prisma delegate
method — does not fail the batch: the operation executes (the abstract
store advances from 0 to 1) and the batch reports success, contradicting
"the whole batch fails before further operations run". -/
theorem claim_C3_counterexample :
    (["create", "update", "updateMany", "delete", "deleteMany", "findMany",
      "findFirst"].contains "count" = false) ∧
    executeAdminAction (σ := Nat) id (fun n _ _ _ => .ok (n + 1, .null)) 0
      ⟨[⟨"Session", "count", .obj [], "count sessions"⟩], "summary", none, false⟩ =
      (1, { success := true, message := "summary", results := some [.null] }) := by
  exact ⟨by decide, rfl⟩

/-- C3 amended: operations run strictly in list order; an operation whose
lowercased model is not a Prisma delegate or whose verb is not a function
of the delegate fails the whole batch at that point with the
"Invalid operation" failure, and the operations before it keep their
effects (the state reached by the prefix is returned; there is no
rollback).  Verbs are gated against the delegate's function members, which
include the seven claimed verbs but also further Prisma methods (see the
counterexample). -/
theorem claim_C3_amended {σ : Type} (hash : String → String)
    (ap : σ → String → String → JVal → Except String (σ × JVal))
    (st st1 : σ) (pre : List PrismaOperation) (bad : PrismaOperation)
    (rest : List PrismaOperation) (res : List JVal) (und : List UndoOperation)
    (summ : String) (isQ : Bool)
    (hpre : runOps hash ap st pre = (st1, .ok (res, und)))
    (hbad : validAdminOp bad = false) :
    executeAdminAction hash ap st ⟨pre ++ bad :: rest, summ, none, isQ⟩ =
      (st1, { success := false,
              message := "Failed to execute: " ++
                ("Invalid operation: " ++ bad.model ++ "." ++ bad.method) }) := by
  unfold executeAdminAction
  have hne : (pre ++ bad :: rest).isEmpty = false := by
    cases pre <;> simp
  simp only [optStrTruthy, hne]
  rw [runOps_append hash ap pre (bad :: rest) st, hpre]
  simp only [runOps, hbad, Bool.false_eq_true, if_false]

/-- C3 amended witness: one valid create runs and keeps its effect
(state advanced to 1), then the invalid operation aborts the batch. -/
theorem claim_C3_amended_witness :
    executeAdminAction (σ := Nat) id (fun n _ _ _ => .ok (n + 1, .null)) 0
      ⟨[⟨"Athlete", "create", .obj [], "make one"⟩,
        ⟨"Workout", "create", .obj [], "bad model"⟩,
        ⟨"User", "delete", .obj [], "never runs"⟩], "summary", none, false⟩ =
      (1, { success := false,
            message := "Failed to execute: " ++
              ("Invalid operation: " ++ "Workout" ++ "." ++ "create") }) := by
  have h := claim_C3_amended (σ := Nat) id (fun n _ _ _ => .ok (n + 1, .null)) 0 1
    [⟨"Athlete", "create", .obj [], "make one"⟩]
    ⟨"Workout", "create", .obj [], "bad model"⟩
    [⟨"User", "delete", .obj [], "never runs"⟩]
    [.null] [] "summary" false rfl (by decide)
  exact h

/-- C5 counterexample: the trainer-scoped executor does not consult
`clarificationNeeded` outside its default branch.  A validated result with
`action = CREATE_SESSION` and a non-null clarification still creates the
session (the store gains a row) and returns the handler's own message, not
the clarification string. -/
theorem claim_C5_counterexample :
    (executeAction (fun _ => "0")
      (fun _ => ⟨2024, 0, 2, 36000000, by omega, by omega, by omega, by omega⟩)
      ⟨2024, 0, 2, 36000000, by omega, by omega, by omega, by omega⟩ 0
      ⟨[⟨"a1", "John", "Smith", "john@x.com", some "t1"⟩], [], [], 0⟩
      ⟨.CREATE_SESSION, 1,
        { session := some ⟨some "a1", "John", false, "2024-01-02T10:00:00Z", 60, none, none⟩ },
        some "Which John?", "book John"⟩ "t1" =
      (⟨[⟨"a1", "John", "Smith", "john@x.com", some "t1"⟩],
        [⟨"session0", "t1", "a1",
          ⟨2024, 0, 2, 36000000, by omega, by omega, by omega, by omega⟩, 60,
          false, none, false, false, none, none, none⟩], [], 1⟩,
       { success := true, message := "Session scheduled for John",
         sessionId := some "session0" })) ∧
    ("Session scheduled for John" ≠ "Which John?") := by
  exact ⟨rfl, by decide⟩

/-- C5 amended: a truthy (non-empty) clarification suppresses execution and
is surfaced verbatim in the admin executor; in the trainer-scoped executor
this holds only for the actions without a dispatch branch
(UNKNOWN, QUERY, UPDATE_SESSION) — dispatched actions ignore the
clarification (see the counterexample). -/
theorem claim_C5_amended :
    (∀ (σ : Type) (hash : String → String)
        (ap : σ → String → String → JVal → Except String (σ × JVal))
        (st : σ) (pr : AdminParseResult) (c : String),
      pr.clarificationNeeded = some c → c ≠ "" →
      executeAdminAction hash ap st pr = (st, { success := false, message := c })) ∧
    (∀ (nts : Nat → String) (pd : String → DateTime) (dh : DateTime) (nowMs : Nat)
        (st : DBState) (pr : ParseResult) (tid : String) (c : String),
      (pr.action = .UNKNOWN ∨ pr.action = .QUERY ∨ pr.action = .UPDATE_SESSION) →
      pr.clarificationNeeded = some c → c ≠ "" →
      executeAction nts pd dh nowMs st pr tid =
        (st, { success := false, message := c, errMsg := some "Action not supported" })) := by
  constructor
  · intro σ hash ap st pr c h1 h2
    unfold executeAdminAction
    have ht : optStrTruthy (some c) = true := by simp [optStrTruthy, h2]
    rw [h1]
    simp [ht]
  · intro nts pd dh nowMs st pr tid c hact hcl hcne
    unfold executeAction
    rcases hact with h | h | h <;> rw [h] <;> simp [hcl, hcne]

/-- C5 amended witness: both executors at concrete inputs with a non-empty
clarification. -/
theorem claim_C5_amended_witness :
    (executeAdminAction (σ := Nat) id (fun n _ _ _ => .ok (n + 1, .null)) 0
      ⟨[⟨"User", "create", .obj [], "d"⟩], "summary", some "Need a name", false⟩ =
      (0, { success := false, message := "Need a name" })) ∧
    (executeAction (fun _ => "0")
      (fun _ => ⟨2024, 0, 2, 0, by omega, by omega, by omega, by omega⟩)
      ⟨2024, 0, 2, 0, by omega, by omega, by omega, by omega⟩ 0
      ⟨[], [], [], 0⟩ ⟨.UNKNOWN, 0, {}, some "Need a name", "s"⟩ "t1" =
      (⟨[], [], [], 0⟩,
       { success := false, message := "Need a name",
         errMsg := some "Action not supported" })) := by
  constructor
  · exact claim_C5_amended.1 Nat id (fun n _ _ _ => .ok (n + 1, .null)) 0
      ⟨[⟨"User", "create", .obj [], "d"⟩], "summary", some "Need a name", false⟩
      "Need a name" rfl (by decide)
  · exact claim_C5_amended.2 (fun _ => "0")
      (fun _ => ⟨2024, 0, 2, 0, by omega, by omega, by omega, by omega⟩)
      ⟨2024, 0, 2, 0, by omega, by omega, by omega, by omega⟩ 0
      ⟨[], [], [], 0⟩ ⟨.UNKNOWN, 0, {}, some "Need a name", "s"⟩ "t1"
      "Need a name" (Or.inl rfl) rfl (by decide)

/-- The query executor never changes the store (every branch only reads). -/
theorem executeQuery_state_eq (pd : String → DateTime) (now : DateTime) (st : DBState)
    (q : ParsedQuery) (tid : String) : (executeQuery pd now st q tid).1 = st := by
  unfold executeQuery
  split <;> rfl

theorem executeQuery_sessions_list (pd : String → DateTime) (now : DateTime)
    (st : DBState) (q : ParsedQuery) (tid : String) (h : q.queryType = "SESSIONS_LIST") :
    (executeQuery pd now st q tid).2.queryResult =
      some { sessions := some ((((st.sessions.filter (querySessionFilter pd q tid)).mergeSort
        (fun a b => decide (a.scheduledAt ≤ b.scheduledAt))).take 50).map
          (sessionToView st)) } := by
  unfold executeQuery
  rw [h]
  rfl

theorem executeQuery_sessions_count (pd : String → DateTime) (now : DateTime)
    (st : DBState) (q : ParsedQuery) (tid : String) (h : q.queryType = "SESSIONS_COUNT") :
    (executeQuery pd now st q tid).2.queryResult =
      some { count := some (st.sessions.filter (querySessionFilter pd q tid)).length } := by
  unfold executeQuery
  rw [h]
  rfl

theorem executeQuery_athletes_list (pd : String → DateTime) (now : DateTime)
    (st : DBState) (q : ParsedQuery) (tid : String) (h : q.queryType = "ATHLETES_LIST") :
    (executeQuery pd now st q tid).2.queryResult =
      some { athletes := some (((st.athletes.filter (fun a => a.trainerId == some tid)).mergeSort
        (fun a b => decide (a.firstName ≤ b.firstName))).map
          (fun a => ⟨a.id, a.firstName, a.lastName, a.email⟩)) } := by
  unfold executeQuery
  rw [h]
  rfl

theorem executeQuery_athletes_count (pd : String → DateTime) (now : DateTime)
    (st : DBState) (q : ParsedQuery) (tid : String) (h : q.queryType = "ATHLETES_COUNT") :
    (executeQuery pd now st q tid).2.queryResult =
      some { count := some (st.athletes.filter (fun a => a.trainerId == some tid)).length } := by
  unfold executeQuery
  rw [h]
  rfl

/-- C6 counterexample: `ATHLETES_LIST` has no `take: 50`; with 51 athletes
assigned to the trainer, the list query returns 51 rows, refuting "at most
50 rows for list queries". -/
theorem claim_C6_counterexample :
    ((executeQuery (fun _ => ⟨2024, 0, 2, 0, by omega, by omega, by omega, by omega⟩)
        ⟨2024, 0, 2, 0, by omega, by omega, by omega, by omega⟩
        ⟨(List.range 51).map (fun i =>
            ⟨"a" ++ toString i, "A", "B", "e" ++ toString i, some "t1"⟩), [], [], 0⟩
        ⟨"ATHLETES_LIST", none, none, none, none, "all athletes"⟩ "t1").2.queryResult.map
      (fun r => r.athletes.map List.length) = some (some 51)) ∧ ¬ (51 ≤ 50) := by
  constructor
  · rw [executeQuery_athletes_list _ _ _ _ _ rfl]
    have hlen : (List.filter (fun a => a.trainerId == some "t1")
        (List.map (fun i =>
          ({ id := "a" ++ toString i, firstName := "A", lastName := "B",
             email := "e" ++ toString i, trainerId := some "t1" } : Athlete))
          (List.range 51))).length = 51 := by decide
    simp [List.length_map, List.length_mergeSort, hlen]
  · omega

/-- C6 amended: trainer-scoped queries never mutate the store; session list
queries apply the date/athlete/status filters and return at most 50 rows;
session and athlete counts are aggregate counts of the filtered rows; the
athlete list applies only the trainer filter and is uncapped, returning all
of the trainer's athletes (see the counterexample for the missing cap). -/
theorem claim_C6_query_execution (pd : String → DateTime) (now : DateTime)
    (st : DBState) (q : ParsedQuery) (tid : String) :
    ((executeQuery pd now st q tid).1 = st) ∧
    (q.queryType = "SESSIONS_LIST" →
      ∃ rows, (executeQuery pd now st q tid).2.queryResult = some { sessions := some rows } ∧
        rows.length ≤ 50 ∧
        ∀ v ∈ rows, ∃ s ∈ st.sessions,
          querySessionFilter pd q tid s = true ∧ v = sessionToView st s) ∧
    (q.queryType = "SESSIONS_COUNT" →
      (executeQuery pd now st q tid).2.queryResult =
        some { count := some (st.sessions.filter (querySessionFilter pd q tid)).length }) ∧
    (q.queryType = "ATHLETES_LIST" →
      ∃ rows, (executeQuery pd now st q tid).2.queryResult = some { athletes := some rows } ∧
        rows.length = (st.athletes.filter (fun a => a.trainerId == some tid)).length) ∧
    (q.queryType = "ATHLETES_COUNT" →
      (executeQuery pd now st q tid).2.queryResult =
        some { count := some (st.athletes.filter (fun a => a.trainerId == some tid)).length }) := by
  refine ⟨executeQuery_state_eq pd now st q tid, ?_, ?_, ?_, ?_⟩
  · intro h
    refine ⟨_, executeQuery_sessions_list pd now st q tid h, ?_, ?_⟩
    · rw [List.length_map]
      have := List.length_take 50 ((st.sessions.filter (querySessionFilter pd q tid)).mergeSort
        (fun a b => decide (a.scheduledAt ≤ b.scheduledAt)))
      omega
    · intro v hv
      rw [List.mem_map] at hv
      obtain ⟨s, hs, rfl⟩ := hv
      have hs' := List.mem_of_mem_take hs
      rw [List.mem_mergeSort, List.mem_filter] at hs'
      exact ⟨s, hs'.1, hs'.2, rfl⟩
  · intro h
    exact executeQuery_sessions_count pd now st q tid h
  · intro h
    refine ⟨_, executeQuery_athletes_list pd now st q tid h, ?_⟩
    rw [List.length_map, List.length_mergeSort]
  · intro h
    exact executeQuery_athletes_count pd now st q tid h

/-- C6 amended witness: on an empty store, every branch instantiates. -/
theorem claim_C6_query_execution_witness :
    ((executeQuery (fun _ => ⟨2024, 0, 2, 0, by omega, by omega, by omega, by omega⟩)
        ⟨2024, 0, 2, 0, by omega, by omega, by omega, by omega⟩ ⟨[], [], [], 0⟩
        ⟨"SESSIONS_COUNT", none, none, none, none, "how many"⟩ "t1").1 = ⟨[], [], [], 0⟩) ∧
    ((executeQuery (fun _ => ⟨2024, 0, 2, 0, by omega, by omega, by omega, by omega⟩)
        ⟨2024, 0, 2, 0, by omega, by omega, by omega, by omega⟩ ⟨[], [], [], 0⟩
        ⟨"SESSIONS_COUNT", none, none, none, none, "how many"⟩ "t1").2.queryResult =
      some { count := some ((⟨[], [], [], 0⟩ : DBState).sessions.filter
        (querySessionFilter (fun _ => ⟨2024, 0, 2, 0, by omega, by omega, by omega, by omega⟩)
          ⟨"SESSIONS_COUNT", none, none, none, none, "how many"⟩ "t1")).length }) := by
  constructor
  · exact (claim_C6_query_execution _ _ _ _ _).1
  · exact (claim_C6_query_execution _ _ _ _ _).2.2.1 rfl

/-- C7 counterexample: the conversion walk skips arrays
(`!Array.isArray(value)` guards the recursion, and array elements are never
visited), so an ISO-prefixed string nested inside an array survives
preprocessing unconverted — refuting "anywhere in the nested structure". -/
theorem claim_C7_counterexample :
    hasIsoDeep (processArgs id (.obj [("where",
      .obj [("OR", .arr [.obj [("date", .str "2025-01-01T00:00:00.000Z")]])])])) = true ∧
    matchesIsoDate "2025-01-01T00:00:00.000Z" = true := by
  constructor
  · have h1 : processArgs id (.obj [("where",
        .obj [("OR", .arr [.obj [("date", .str "2025-01-01T00:00:00.000Z")]])])]) =
        .obj [("where",
          .obj [("OR", .arr [.obj [("date", .str "2025-01-01T00:00:00.000Z")]])])] := by
      show convertDates (passwordStep id _) = _
      rw [show passwordStep id (.obj [("where",
          .obj [("OR", .arr [.obj [("date", .str "2025-01-01T00:00:00.000Z")]])])]) =
        .obj [("where",
          .obj [("OR", .arr [.obj [("date", .str "2025-01-01T00:00:00.000Z")]])])] from rfl]
      simp [convertDates, convertFields]
    rw [h1]
    simp [hasIsoDeep, hasIsoDeepFields, hasIsoDeepList]
    decide
  · decide

/-- C7 amended: within the date-conversion walk, every ISO-prefixed string
reachable through nested non-array objects is converted (none remains at a
reachable position); values with no reachable ISO string — arrays and their
entire contents included — are left exactly unchanged; array-valued fields
are passed through without being visited. -/
theorem claim_C7_date_conversion :
    (∀ fs : List (String × JVal), isoFreeFields (convertFields fs) = true) ∧
    (∀ fs : List (String × JVal), isoFreeFields fs = true → convertFields fs = fs) ∧
    (∀ (k : String) (xs : List JVal) (rest : List (String × JVal)),
      convertFields ((k, .arr xs) :: rest) = (k, .arr xs) :: convertFields rest) := by
  refine ⟨?_, ?_, ?_⟩
  · intro fs
    induction fs using convertFields.induct with
    | case1 => simp [convertFields, isoFreeFields]
    | case2 k s rest ih =>
      by_cases hm : matchesIsoDate s
      · simp [convertFields, hm, isoFreeFields, ih]
      · simp [convertFields, hm, isoFreeFields, ih]
    | case3 k fs' rest ih1 ih2 =>
      simp [convertFields, isoFreeFields, ih1, ih2]
    | case4 k v rest hns hno ih =>
      rcases v with _ | b | q | s | xs | gs | ds
      · simp [convertFields, isoFreeFields, ih]
      · simp [convertFields, isoFreeFields, ih]
      · simp [convertFields, isoFreeFields, ih]
      · exact absurd rfl (hns s)
      · simp [convertFields, isoFreeFields, ih]
      · exact absurd rfl (hno gs)
      · simp [convertFields, isoFreeFields, ih]
  · intro fs
    induction fs using convertFields.induct with
    | case1 => intro _; simp [convertFields]
    | case2 k s rest ih =>
      intro h
      simp only [isoFreeFields, Bool.and_eq_true, Bool.not_eq_true'] at h
      simp [convertFields, h.1, ih h.2]
    | case3 k fs' rest ih1 ih2 =>
      intro h
      simp only [isoFreeFields, Bool.and_eq_true] at h
      simp [convertFields, ih1 h.1, ih2 h.2]
    | case4 k v rest hns hno ih =>
      intro h
      rcases v with _ | b | q | s | xs | gs | ds
      · simp only [isoFreeFields] at h; simp [convertFields, ih h]
      · simp only [isoFreeFields] at h; simp [convertFields, ih h]
      · simp only [isoFreeFields] at h; simp [convertFields, ih h]
      · exact absurd rfl (hns s)
      · simp only [isoFreeFields] at h; simp [convertFields, ih h]
      · exact absurd rfl (hno gs)
      · simp only [isoFreeFields] at h; simp [convertFields, ih h]
  · intro k xs rest
    simp [convertFields]

/-- C7 amended witness: a non-ISO string field is left unchanged by the walk. -/
theorem claim_C7_date_conversion_witness :
    convertFields [("name", .str "John")] = [("name", .str "John")] :=
  claim_C7_date_conversion.2.1 [("name", .str "John")]
    (by
      rw [show isoFreeFields [("name", .str "John")] =
            (!matchesIsoDate "John" && isoFreeFields []) from by
          conv_lhs => rw [isoFreeFields]]
      rw [show isoFreeFields [] = true from by rw [isoFreeFields]]
      decide)

/-- The generated placeholder email determines the `Date.now()` reading
(when the host's number rendering is injective). -/
theorem placeholderEmail_inj (nts : Nat → String) (hinj : Function.Injective nts)
    (f l : String) {t1 t2 : Nat}
    (h : placeholderEmail nts f l t1 = placeholderEmail nts f l t2) : t1 = t2 := by
  unfold placeholderEmail at h
  apply hinj
  apply String.ext
  have hd := congrArg String.data h
  simp only [String.data_append] at hd
  exact List.append_cancel_left (List.append_cancel_right hd)

/-- Generated athlete ids are never the empty string (so they are truthy). -/
theorem generated_id_ne_empty (x : String) : ("athlete" ++ x) ≠ "" := by
  intro h
  have hlen := congrArg String.length h
  rw [String.length_append] at hlen
  rw [show "athlete".length = 7 from rfl, show "".length = 0 from rfl] at hlen
  omega

/-- One `createSession` call with `isNewAthlete` and no athlete id: exactly
one athlete row is appended, then one session row referencing it. -/
theorem createSession_new_athlete (nts : Nat → String) (pd : String → DateTime) (t : Nat)
    (st : DBState) (sd : ParsedSession) (tid : String)
    (hnew : sd.isNewAthlete = true) (hid : sd.athleteId = none)
    (he : ∀ a ∈ st.athletes, a.email ≠ placeholderEmail nts
      (splitNameFirst sd.athleteName) (splitNameLast sd.athleteName) t) :
    createSession nts pd t st (some sd) tid =
      ({ athletes := st.athletes ++
          [⟨"athlete" ++ toString st.nextId, splitNameFirst sd.athleteName,
            splitNameLast sd.athleteName,
            placeholderEmail nts (splitNameFirst sd.athleteName)
              (splitNameLast sd.athleteName) t, some tid⟩],
         sessions := st.sessions ++
          [⟨"session" ++ toString (st.nextId + 1), tid, "athlete" ++ toString st.nextId,
            pd sd.scheduledAt, sd.duration, false, none, false, false, none, none, none⟩],
         checkIns := st.checkIns, nextId := st.nextId + 1 + 1 },
       { success := true, message := "Session scheduled for " ++ sd.athleteName,
         sessionId := some ("session" ++ toString (st.nextId + 1)) }) := by
  have hres : resolveAthleteId nts t st sd tid =
      .ok (⟨st.athletes ++
          [⟨"athlete" ++ toString st.nextId, splitNameFirst sd.athleteName,
            splitNameLast sd.athleteName,
            placeholderEmail nts (splitNameFirst sd.athleteName)
              (splitNameLast sd.athleteName) t, some tid⟩],
          st.sessions, st.checkIns, st.nextId + 1⟩,
        some ("athlete" ++ toString st.nextId)) := by
    unfold resolveAthleteId
    rw [if_pos ⟨by rw [hnew], by rw [hid]; simp [optStrTruthy]⟩]
    unfold athleteCreate
    rw [if_neg ?hany]
    case hany =>
      rw [List.any_eq_true]
      rintro ⟨a, ha, hae⟩
      exact he a ha (by simpa using hae)
  unfold createSession
  simp only []
  rw [hres]
  simp only []
  rw [dif_pos (by simp [optStrTruthy, generated_id_ne_empty])]
  unfold sessionCreate
  rfl

/-- C9: CREATE_SESSION with `isNewAthlete` and no athlete id creates exactly
one new Athlete row (placeholder email stamped with `Date.now()`) before
the Session row, which references it; a second identical call at a distinct
timestamp creates a second, distinct Athlete row — no deduplication. -/
theorem claim_C9_new_athlete_rows (nts : Nat → String) (pd : String → DateTime)
    (st : DBState) (sd : ParsedSession) (tid : String) (t1 t2 : Nat)
    (hinj : Function.Injective nts)
    (hnew : sd.isNewAthlete = true) (hid : sd.athleteId = none)
    (he1 : ∀ a ∈ st.athletes, a.email ≠ placeholderEmail nts
      (splitNameFirst sd.athleteName) (splitNameLast sd.athleteName) t1)
    (he2 : ∀ a ∈ st.athletes, a.email ≠ placeholderEmail nts
      (splitNameFirst sd.athleteName) (splitNameLast sd.athleteName) t2)
    (hne : t1 ≠ t2) :
    ∃ (a1 s1 a2 s2 : _),
      (createSession nts pd t1 st (some sd) tid).1 =
        { athletes := st.athletes ++ [a1], sessions := st.sessions ++ [s1],
          checkIns := st.checkIns, nextId := st.nextId + 1 + 1 } ∧
      s1.athleteId = a1.id ∧
      a1.email = placeholderEmail nts (splitNameFirst sd.athleteName)
        (splitNameLast sd.athleteName) t1 ∧
      (createSession nts pd t2 (createSession nts pd t1 st (some sd) tid).1
          (some sd) tid).1 =
        { athletes := st.athletes ++ [a1, a2], sessions := st.sessions ++ [s1, s2],
          checkIns := st.checkIns, nextId := st.nextId + 1 + 1 + 1 + 1 } ∧
      s2.athleteId = a2.id ∧
      a2.email = placeholderEmail nts (splitNameFirst sd.athleteName)
        (splitNameLast sd.athleteName) t2 ∧
      a1 ≠ a2 := by
  have h1 := createSession_new_athlete nts pd t1 st sd tid hnew hid he1
  set e1 := placeholderEmail nts (splitNameFirst sd.athleteName)
    (splitNameLast sd.athleteName) t1 with he1def
  set e2 := placeholderEmail nts (splitNameFirst sd.athleteName)
    (splitNameLast sd.athleteName) t2 with he2def
  have hee : e1 ≠ e2 := by
    intro h
    exact hne (placeholderEmail_inj nts hinj _ _ h)
  set st1 := (createSession nts pd t1 st (some sd) tid).1 with hst1
  have hst1v : st1 = ⟨st.athletes ++
      [⟨"athlete" ++ toString st.nextId, splitNameFirst sd.athleteName,
        splitNameLast sd.athleteName, e1, some tid⟩],
      st.sessions ++
      [⟨"session" ++ toString (st.nextId + 1), tid, "athlete" ++ toString st.nextId,
        pd sd.scheduledAt, sd.duration, false, none, false, false, none, none, none⟩],
      st.checkIns, st.nextId + 1 + 1⟩ := by
    rw [hst1, h1]
  have he2' : ∀ a ∈ st1.athletes, a.email ≠ e2 := by
    rw [hst1v]
    intro a ha
    rw [List.mem_append] at ha
    rcases ha with ha | ha
    · exact he2 a ha
    · simp only [List.mem_singleton] at ha
      subst ha
      exact hee
  have h2 := createSession_new_athlete nts pd t2 st1 sd tid hnew hid he2'
  refine ⟨⟨"athlete" ++ toString st.nextId, splitNameFirst sd.athleteName,
        splitNameLast sd.athleteName, e1, some tid⟩,
      ⟨"session" ++ toString (st.nextId + 1), tid, "athlete" ++ toString st.nextId,
        pd sd.scheduledAt, sd.duration, false, none, false, false, none, none, none⟩,
      ⟨"athlete" ++ toString st1.nextId, splitNameFirst sd.athleteName,
        splitNameLast sd.athleteName, e2, some tid⟩,
      ⟨"session" ++ toString (st1.nextId + 1), tid, "athlete" ++ toString st1.nextId,
        pd sd.scheduledAt, sd.duration, false, none, false, false, none, none, none⟩,
      ?_, rfl, rfl, ?_, rfl, rfl, ?_⟩
  · exact hst1v
  · rw [h2, hst1v]
    simp [List.append_assoc, hst1v]
  · intro hcon
    have hcon' := congrArg Athlete.email hcon
    simp only at hcon'
    exact hee hcon'

/-- C9 witness: two identical calls at timestamps 0 and 1 on an empty store
leave exactly two athlete rows. -/
theorem claim_C9_new_athlete_rows_witness :
    ((createSession (fun n => String.mk (List.replicate n 'x'))
        (fun _ => ⟨2024, 0, 2, 0, by omega, by omega, by omega, by omega⟩) 1
        ((createSession (fun n => String.mk (List.replicate n 'x'))
          (fun _ => ⟨2024, 0, 2, 0, by omega, by omega, by omega, by omega⟩) 0
          ⟨[], [], [], 0⟩
          (some ⟨none, "Jo Smith", true, "2024-01-02T10:00:00Z", 60, none, none⟩) "t").1)
        (some ⟨none, "Jo Smith", true, "2024-01-02T10:00:00Z", 60, none, none⟩)
        "t").1).athletes.length = 2 := by
  obtain ⟨a1, s1, a2, s2, h1, hs1, he1', h2, hs2, he2', hne⟩ :=
    claim_C9_new_athlete_rows (fun n => String.mk (List.replicate n 'x'))
      (fun _ => ⟨2024, 0, 2, 0, by omega, by omega, by omega, by omega⟩)
      ⟨[], [], [], 0⟩ ⟨none, "Jo Smith", true, "2024-01-02T10:00:00Z", 60, none, none⟩
      "t" 0 1
      (by
        intro a b h
        have hl := congrArg (fun s => s.data.length) h
        simpa using hl)
      rfl rfl (by simp) (by simp) (by omega)
  rw [h2]
  simp

/-- C10: a check-in with an open same-day session records a matched CheckIn
row and immediately marks that session completed with a completion
timestamp; with no such session it records an unmatched CheckIn with a null
session reference and modifies no session.  The matched session is the
earliest same-day open session. -/
theorem claim_C10_checkin (st : DBState) (aid : String) (now : DateTime) :
    ((∀ c ∈ st.checkIns, c.sessionId = none) →
      ∀ ts, (st.sessions.filter (todaySessionFilter aid now)).argmin
          Session.scheduledAt = some ts →
      processCheckIn st aid now =
        (⟨st.athletes,
          st.sessions.map (fun t =>
            if t.id = ts.id then { t with completed := true, completedAt := some now }
            else t),
          st.checkIns ++ [⟨"checkin" ++ toString st.nextId, aid, some ts.id, true⟩],
          st.nextId + 1⟩,
         { ok := true, matchedSession := some ts })) ∧
    ((∀ s ∈ st.sessions, todaySessionFilter aid now s = false) →
      (processCheckIn st aid now).1.sessions = st.sessions ∧
      (processCheckIn st aid now).1.checkIns =
        st.checkIns ++ [⟨"checkin" ++ toString st.nextId, aid, none, false⟩]) ∧
    (∀ ts, (st.sessions.filter (todaySessionFilter aid now)).argmin
        Session.scheduledAt = some ts →
      ts ∈ st.sessions ∧ todaySessionFilter aid now ts = true ∧
      ∀ s ∈ st.sessions, todaySessionFilter aid now s = true →
        ts.scheduledAt ≤ s.scheduledAt) ∧
    ((∃ s ∈ st.sessions, todaySessionFilter aid now s = true) →
      (st.sessions.filter (todaySessionFilter aid now)).argmin
        Session.scheduledAt ≠ none) := by
  refine ⟨?_, ?_, ?_, ?_⟩
  · intro hc ts hts
    unfold processCheckIn
    rw [hts]
    have hcc : checkInCreate st aid (some ts.id) true =
        .ok (⟨st.athletes, st.sessions,
          st.checkIns ++ [⟨"checkin" ++ toString st.nextId, aid, some ts.id, true⟩],
          st.nextId + 1⟩,
          ⟨"checkin" ++ toString st.nextId, aid, some ts.id, true⟩) := by
      unfold checkInCreate
      rw [if_neg]
      rintro ⟨-, hany⟩
      rw [List.any_eq_true] at hany
      obtain ⟨c, hcmem, hcs⟩ := hany
      rw [hc c hcmem] at hcs
      simp at hcs
    simp only [Option.map_some', Option.isSome_some]
    rw [hcc]
  · intro hno
    have hfil : st.sessions.filter (todaySessionFilter aid now) = [] := by
      rw [List.filter_eq_nil]
      intro s hs
      rw [hno s hs]
      simp
    unfold processCheckIn
    rw [hfil, List.argmin_nil]
    simp only [Option.map_none', Option.isSome_none]
    have hcc : checkInCreate st aid none false =
        .ok (⟨st.athletes, st.sessions,
          st.checkIns ++ [⟨"checkin" ++ toString st.nextId, aid, none, false⟩],
          st.nextId + 1⟩,
          ⟨"checkin" ++ toString st.nextId, aid, none, false⟩) := by
      unfold checkInCreate
      rw [if_neg]
      rintro ⟨hsome, -⟩
      simp at hsome
    rw [hcc]
    exact ⟨rfl, rfl⟩
  · intro ts hts
    have hmem := List.argmin_mem hts
    rw [List.mem_filter] at hmem
    refine ⟨hmem.1, hmem.2, ?_⟩
    intro s hs hsf
    exact List.le_of_mem_argmin (List.mem_filter.mpr ⟨hs, hsf⟩) hts
  · rintro ⟨s, hs, hsf⟩ hnone
    rw [List.argmin_eq_none] at hnone
    have hmem := List.mem_filter.mpr ⟨hs, hsf⟩
    rw [hnone] at hmem
    simp at hmem

/-- C10 witness: check-in on a store with one open same-day session marks it
completed and records the matched CheckIn. -/
theorem claim_C10_checkin_witness :
    processCheckIn
      ⟨[], [⟨"s1", "t1", "a1", ⟨2024, 0, 2, 36000000, by omega, by omega, by omega, by omega⟩,
          60, false, none, false, false, none, none, none⟩], [], 5⟩
      "a1" ⟨2024, 0, 2, 50000000, by omega, by omega, by omega, by omega⟩ =
      (⟨[], [⟨"s1", "t1", "a1", ⟨2024, 0, 2, 36000000, by omega, by omega, by omega, by omega⟩,
          60, true, some ⟨2024, 0, 2, 50000000, by omega, by omega, by omega, by omega⟩,
          false, false, none, none, none⟩],
        [⟨"checkin5", "a1", some "s1", true⟩], 6⟩,
       { ok := true,
         matchedSession := some ⟨"s1", "t1", "a1",
           ⟨2024, 0, 2, 36000000, by omega, by omega, by omega, by omega⟩,
           60, false, none, false, false, none, none, none⟩ }) := by
  have h := (claim_C10_checkin
    ⟨[], [⟨"s1", "t1", "a1", ⟨2024, 0, 2, 36000000, by omega, by omega, by omega, by omega⟩,
        60, false, none, false, false, none, none, none⟩], [], 5⟩
    "a1" ⟨2024, 0, 2, 50000000, by omega, by omega, by omega, by omega⟩).1
    (by intro c hc; simp at hc)
    ⟨"s1", "t1", "a1", ⟨2024, 0, 2, 36000000, by omega, by omega, by omega, by omega⟩,
      60, false, none, false, false, none, none, none⟩
    (by decide)
  rw [h]
  rfl

end DscGym
